import Mathlib

/-!
Verification of the post-fetching scripts (scripts/posts) against their
specification.  Python strings are modelled as lists of code points
(`List Nat`), restricted to the ASCII fragment of the Unicode classes the
code relies on (word characters, whitespace); machine behaviour such as
regular-expression substitution is translated into explicit recursive
functions over those lists.
-/

namespace Blog

/-! ## Code-point classes (ASCII fragment of Python's regex classes) -/

/-- ASCII upper-case letter. -/
def isUpperAlpha (c : Nat) : Bool := 65 ≤ c && c ≤ 90

/-- ASCII lower-case letter. -/
def isLowerAlpha (c : Nat) : Bool := 97 ≤ c && c ≤ 122

/-- ASCII digit. -/
def isDigitCode (c : Nat) : Bool := 48 ≤ c && c ≤ 57

/-- Python regex class w (word character): letter, digit or underscore. -/
def isWordCode (c : Nat) : Bool :=
  isUpperAlpha c || isLowerAlpha c || isDigitCode c || c == 95

/-- Python regex class s (whitespace): space, tab, newline, CR, VT, FF. -/
def isSpaceCode (c : Nat) : Bool :=
  c == 32 || c == 9 || c == 10 || c == 13 || c == 11 || c == 12

/-- Python str.lower, code-point-wise on the ASCII letters. -/
def lowerCode (c : Nat) : Nat := if isUpperAlpha c then c + 32 else c

/-- Code points of a string literal (used for concrete inputs). -/
def codes (s : String) : List Nat := s.toList.map Char.toNat

/-- Python str.strip: drop whitespace from both ends. -/
def pyStrip (s : List Nat) : List Nat :=
  ((s.dropWhile isSpaceCode).reverse.dropWhile isSpaceCode).reverse

/-! ## slugify (cli.py lines 30-34)

`re.sub(r"[^\w\s-]", "", title)` keeps exactly the characters below;
`re.sub(r"[\s_-]+", "-", ...)` replaces each maximal run of
whitespace/underscore/hyphen with a single hyphen. -/

/-- Characters kept by the first substitution: word, whitespace or hyphen. -/
def keepCode (c : Nat) : Bool := isWordCode c || isSpaceCode c || c == 45

/-- Characters collapsed by the second substitution: whitespace, `_` or `-`. -/
def collapseCode (c : Nat) : Bool := isSpaceCode c || c == 95 || c == 45

/-- Replace each maximal run of `collapseCode` characters by a single hyphen.
The flag records whether we are inside such a run. -/
def collapseRuns : List Nat → Bool → List Nat
  | [], _ => []
  | c :: rest, inRun =>
    if collapseCode c then
      if inRun then collapseRuns rest true else 45 :: collapseRuns rest true
    else c :: collapseRuns rest false

/-- cli.slugify: filter to word/space/hyphen, strip, lower, collapse runs to
single hyphens, falling back to the literal "post" when empty. -/
def slugify (title : List Nat) : List Nat :=
  let normalized := title.filter keepCode
  let collapsed := collapseRuns ((pyStrip normalized).map lowerCode) false
  if collapsed = [] then codes "post" else collapsed

/-! ## Invariants of slugify -/

/-- A character that may appear in a slug: lower-case letter, digit, hyphen. -/
def isOutCode (c : Nat) : Bool := isLowerAlpha c || isDigitCode c || c == 45

/-- No two adjacent hyphens. -/
def noAdjacentHyphens : List Nat → Bool
  | [] => true
  | [_] => true
  | a :: b :: rest => (!(a == 45 && b == 45)) && noAdjacentHyphens (b :: rest)

theorem mem_collapseRuns {c : Nat} :
    ∀ (l : List Nat) (b : Bool), c ∈ collapseRuns l b →
      c = 45 ∨ (c ∈ l ∧ collapseCode c = false) := by
  intro l
  induction l with
  | nil => intro b h; simp [collapseRuns] at h
  | cons d rest ih =>
    intro b h
    by_cases hd : collapseCode d = true
    · rcases b with _ | _
      · simp [collapseRuns, hd] at h
        rcases h with h | h
        · exact Or.inl h
        · rcases ih true h with h1 | ⟨h2, h3⟩
          · exact Or.inl h1
          · exact Or.inr ⟨List.mem_cons_of_mem _ h2, h3⟩
      · simp [collapseRuns, hd] at h
        rcases ih true h with h1 | ⟨h2, h3⟩
        · exact Or.inl h1
        · exact Or.inr ⟨List.mem_cons_of_mem _ h2, h3⟩
    · simp only [Bool.not_eq_true] at hd
      simp [collapseRuns, hd] at h
      rcases h with h | h
      · subst h; exact Or.inr ⟨List.mem_cons_self _ _, hd⟩
      · rcases ih false h with h1 | ⟨h2, h3⟩
        · exact Or.inl h1
        · exact Or.inr ⟨List.mem_cons_of_mem _ h2, h3⟩

theorem head_collapseRuns_true :
    ∀ (l : List Nat), (collapseRuns l true).head? ≠ some 45 := by
  intro l
  induction l with
  | nil => simp [collapseRuns]
  | cons d rest ih =>
    by_cases hd : collapseCode d = true
    · simpa [collapseRuns, hd] using ih
    · simp only [Bool.not_eq_true] at hd
      simp [collapseRuns, hd]
      intro h
      subst h
      simp [collapseCode] at hd

theorem noAdjacentHyphens_cons {a : Nat} {l : List Nat}
    (h1 : l.head? ≠ some 45 ∨ a ≠ 45) (h2 : noAdjacentHyphens l = true) :
    noAdjacentHyphens (a :: l) = true := by
  cases l with
  | nil => simp [noAdjacentHyphens]
  | cons b rest =>
    simp only [noAdjacentHyphens, Bool.and_eq_true, Bool.not_eq_true']
    refine ⟨?_, h2⟩
    simp only [List.head?_cons] at h1
    rcases h1 with h | h
    · simp only [Bool.and_eq_false_iff, beq_eq_false_iff_ne, ne_eq]
      right; intro hb; exact h (by rw [hb])
    · simp only [Bool.and_eq_false_iff, beq_eq_false_iff_ne, ne_eq]
      left; exact h

theorem noAdjacentHyphens_collapseRuns :
    ∀ (l : List Nat) (b : Bool), noAdjacentHyphens (collapseRuns l b) = true := by
  intro l
  induction l with
  | nil => intro b; simp [collapseRuns, noAdjacentHyphens]
  | cons d rest ih =>
    intro b
    by_cases hd : collapseCode d = true
    · rcases b with _ | _
      · simp only [collapseRuns, hd, if_true, Bool.false_eq_true, if_false]
        exact noAdjacentHyphens_cons (Or.inl (head_collapseRuns_true rest)) (ih true)
      · simpa [collapseRuns, hd] using ih true
    · simp only [Bool.not_eq_true] at hd
      simp only [collapseRuns, hd, Bool.false_eq_true, if_false]
      refine noAdjacentHyphens_cons (Or.inr ?_) (ih false)
      intro h
      subst h
      simp [collapseCode] at hd

theorem collapseRuns_cons (c : Nat) (rest : List Nat) (b : Bool) :
    collapseRuns (c :: rest) b =
      if collapseCode c then
        (if b then collapseRuns rest true else 45 :: collapseRuns rest true)
      else c :: collapseRuns rest false := rfl

theorem getLast_collapseRuns {x : Nat} (hx : collapseCode x = false) :
    ∀ (l : List Nat) (b : Bool), l.getLast? = some x →
      (collapseRuns l b).getLast? = some x := by
  intro l
  induction l with
  | nil => intro b h; simp at h
  | cons d rest ih =>
    intro b h
    cases rest with
    | nil =>
      simp only [List.getLast?_singleton, Option.some_inj] at h
      subst h
      simp [collapseRuns_cons, collapseRuns, hx]
    | cons e tail =>
      have htail : (e :: tail).getLast? = some x := by
        rw [List.getLast?_cons_cons] at h
        exact h
      have hrec : ∀ b2 : Bool, (collapseRuns (e :: tail) b2).getLast? = some x :=
        fun b2 => ih b2 htail
      rw [collapseRuns_cons]
      by_cases hd : collapseCode d = true
      · simp only [hd, if_true]
        rcases b with _ | _
        · simp only [Bool.false_eq_true, if_false]
          have h1 := hrec true
          cases hL : collapseRuns (e :: tail) true with
          | nil => rw [hL] at h1; simp at h1
          | cons y ys =>
            rw [hL] at h1
            rw [List.getLast?_cons_cons]
            exact h1
        · simp only [if_true]
          exact hrec true
      · simp only [Bool.not_eq_true] at hd
        simp only [hd, Bool.false_eq_true, if_false]
        have h1 := hrec false
        cases hL : collapseRuns (e :: tail) false with
        | nil => rw [hL] at h1; simp at h1
        | cons y ys =>
          rw [hL] at h1
          rw [List.getLast?_cons_cons]
          exact h1

theorem mem_dropWhile {p : Nat → Bool} {c : Nat} :
    ∀ {l : List Nat}, c ∈ l.dropWhile p → c ∈ l := by
  intro l
  induction l with
  | nil => intro h; simp at h
  | cons d rest ih =>
    intro h
    by_cases hd : p d = true
    · simp only [List.dropWhile_cons, hd, if_true] at h
      exact List.mem_cons_of_mem _ (ih h)
    · simp only [Bool.not_eq_true] at hd
      simpa [List.dropWhile_cons, hd] using h

theorem mem_pyStrip {c : Nat} {l : List Nat} (h : c ∈ pyStrip l) : c ∈ l := by
  unfold pyStrip at h
  rw [List.mem_reverse] at h
  have h2 := mem_dropWhile h
  rw [List.mem_reverse] at h2
  exact mem_dropWhile h2

/-! ## Pointwise character lemmas -/

theorem lowerCode_out {d : Nat} (hk : keepCode d = true)
    (hc : collapseCode (lowerCode d) = false) : isOutCode (lowerCode d) = true := by
  by_cases hu : isUpperAlpha d = true
  · simp only [lowerCode, if_pos hu] at hc ⊢
    simp only [isUpperAlpha, isOutCode, isLowerAlpha, isDigitCode, Bool.and_eq_true,
      Bool.or_eq_true, decide_eq_true_eq, beq_iff_eq] at hu ⊢
    omega
  · simp only [lowerCode, if_neg hu] at hc ⊢
    simp only [Bool.not_eq_true] at hu
    simp only [keepCode, isWordCode, isUpperAlpha, isLowerAlpha, isDigitCode, isSpaceCode,
      collapseCode, isOutCode, Bool.or_eq_true, Bool.and_eq_true, decide_eq_true_eq,
      beq_iff_eq, Bool.or_eq_false_iff, Bool.and_eq_false_iff, decide_eq_false_iff_not,
      beq_eq_false_iff_ne, ne_eq] at hk hc hu ⊢
    omega

theorem out_keep {c : Nat} (h : isOutCode c = true) : keepCode c = true := by
  simp only [isOutCode, keepCode, isWordCode, isUpperAlpha, isLowerAlpha, isDigitCode,
    isSpaceCode, Bool.or_eq_true, Bool.and_eq_true, decide_eq_true_eq, beq_iff_eq] at h ⊢
  omega

theorem out_not_space {c : Nat} (h : isOutCode c = true) : isSpaceCode c = false := by
  simp only [isOutCode, isLowerAlpha, isDigitCode, isSpaceCode, Bool.or_eq_true,
    Bool.and_eq_true, decide_eq_true_eq, beq_iff_eq, Bool.or_eq_false_iff,
    beq_eq_false_iff_ne, ne_eq] at h ⊢
  omega

theorem out_lower_fix {c : Nat} (h : isOutCode c = true) : lowerCode c = c := by
  have : isUpperAlpha c = false := by
    simp only [isOutCode, isLowerAlpha, isDigitCode, isUpperAlpha, Bool.or_eq_true,
      Bool.and_eq_true, decide_eq_true_eq, beq_iff_eq, Bool.and_eq_false_iff,
      decide_eq_false_iff_not] at h ⊢
    omega
  simp [lowerCode, this]

theorem out_collapse {c : Nat} (h : isOutCode c = true) (h45 : c ≠ 45) :
    collapseCode c = false := by
  simp only [isOutCode, isLowerAlpha, isDigitCode, isSpaceCode, collapseCode,
    Bool.or_eq_true, Bool.and_eq_true, decide_eq_true_eq, beq_iff_eq,
    Bool.or_eq_false_iff, beq_eq_false_iff_ne, ne_eq] at h ⊢
  omega

theorem collapseCode_of_flags {c : Nat} (hs : isSpaceCode c = false)
    (h95 : c ≠ 95) (h45 : c ≠ 45) : collapseCode c = false := by
  simp only [collapseCode, hs, Bool.or_eq_true, beq_iff_eq, Bool.or_eq_false_iff,
    beq_eq_false_iff_ne, ne_eq, Bool.false_or]
  exact ⟨h95, h45⟩

theorem lowerCode_collapse {c : Nat} (hc : collapseCode c = false) :
    collapseCode (lowerCode c) = false ∧ lowerCode c ≠ 45 := by
  by_cases hu : isUpperAlpha c = true
  · simp only [lowerCode, if_pos hu]
    simp only [isUpperAlpha, Bool.and_eq_true, decide_eq_true_eq] at hu
    simp only [collapseCode, isSpaceCode, Bool.or_eq_true, beq_iff_eq, Bool.or_eq_false_iff,
      beq_eq_false_iff_ne, ne_eq, Bool.or_eq_false_iff]
    omega
  · simp only [lowerCode, if_neg hu]
    refine ⟨hc, ?_⟩
    intro h
    subst h
    simp [collapseCode] at hc

/-! ## Head/last structure of pyStrip -/

theorem head_dropWhile {p : Nat → Bool} :
    ∀ (l : List Nat) {x : Nat}, (l.dropWhile p).head? = some x → p x = false := by
  intro l
  induction l with
  | nil => intro x h; simp at h
  | cons d rest ih =>
    intro x h
    by_cases hd : p d = true
    · rw [List.dropWhile_cons, if_pos hd] at h
      exact ih h
    · rw [List.dropWhile_cons, if_neg hd] at h
      simp only [List.head?_cons, Option.some_inj] at h
      subst h
      simpa using hd

theorem getLast_dropWhile {p : Nat → Bool} :
    ∀ (l : List Nat), l.dropWhile p ≠ [] → (l.dropWhile p).getLast? = l.getLast? := by
  intro l
  induction l with
  | nil => intro h; simp at h
  | cons d rest ih =>
    intro h
    by_cases hd : p d = true
    · rw [List.dropWhile_cons, if_pos hd] at h ⊢
      cases rest with
      | nil => simp at h
      | cons e tail =>
        rw [List.getLast?_cons_cons]
        exact ih h
    · rw [List.dropWhile_cons, if_neg hd]

theorem pyStrip_head {l : List Nat} {x : Nat} (h : (pyStrip l).head? = some x) :
    isSpaceCode x = false := by
  unfold pyStrip at h
  rw [List.head?_reverse] at h
  have hne : (l.dropWhile isSpaceCode).reverse.dropWhile isSpaceCode ≠ [] := by
    intro hnil
    rw [hnil] at h
    simp at h
  rw [getLast_dropWhile _ hne, List.getLast?_reverse] at h
  exact head_dropWhile _ h

theorem pyStrip_getLast {l : List Nat} {x : Nat} (h : (pyStrip l).getLast? = some x) :
    isSpaceCode x = false := by
  unfold pyStrip at h
  rw [List.getLast?_reverse] at h
  exact head_dropWhile _ h

theorem mem_of_head {l : List Nat} {x : Nat} (h : l.head? = some x) : x ∈ l :=
  List.mem_of_mem_head? (by rw [h]; exact rfl)

theorem mem_of_getLast {l : List Nat} {x : Nat} (h : l.getLast? = some x) : x ∈ l := by
  rw [List.getLast?_eq_head?_reverse] at h
  have := List.mem_of_mem_head? (l := l.reverse) (by rw [h]; exact rfl)
  rwa [List.mem_reverse] at this

/-! ## Main slugify invariants -/

theorem slugify_mem_out {t : List Nat} {c : Nat} (h : c ∈ slugify t) :
    isOutCode c = true := by
  simp only [slugify] at h
  split at h
  · rw [show codes "post" = [112, 111, 115, 116] from rfl] at h
    simp only [List.mem_cons, List.not_mem_nil, or_false] at h
    rcases h with rfl | rfl | rfl | rfl <;> decide
  · rcases mem_collapseRuns _ _ h with rfl | ⟨hm, hcc⟩
    · decide
    · rcases List.mem_map.1 hm with ⟨d, hd, rfl⟩
      have hk : keepCode d = true :=
        (List.mem_filter.1 (mem_pyStrip hd)).2
      exact lowerCode_out hk hcc

theorem slugify_noAdjacent (t : List Nat) :
    noAdjacentHyphens (slugify t) = true := by
  simp only [slugify]
  split
  · rw [show codes "post" = [112, 111, 115, 116] from rfl]
    decide
  · exact noAdjacentHyphens_collapseRuns _ _

theorem slugify_ne_nil (t : List Nat) : slugify t ≠ [] := by
  simp only [slugify]
  split
  · rw [show codes "post" = [112, 111, 115, 116] from rfl]
    simp
  · next h => exact h

theorem slugify_edges {t : List Nat} (hno : ∀ c ∈ t, c ≠ 45 ∧ c ≠ 95) :
    (slugify t).head? ≠ some 45 ∧ (slugify t).getLast? ≠ some 45 := by
  have hchar : ∀ c ∈ pyStrip (t.filter keepCode), c ≠ 45 ∧ c ≠ 95 := by
    intro c hc
    exact hno c (List.mem_filter.1 (mem_pyStrip hc)).1
  simp only [slugify]
  split
  · constructor
    · rw [show codes "post" = [112, 111, 115, 116] from rfl]
      decide
    · rw [show codes "post" = [112, 111, 115, 116] from rfl]
      decide
  · next hne =>
    cases hu : pyStrip (t.filter keepCode) with
    | nil =>
      exfalso
      apply hne
      rw [hu]
      rfl
    | cons e rest =>
      have hhead : (pyStrip (t.filter keepCode)).head? = some e := by
        rw [hu]; rfl
      have hes : isSpaceCode e = false := pyStrip_head hhead
      have he45 : e ≠ 45 ∧ e ≠ 95 := hchar e (mem_of_head hhead)
      have hecol : collapseCode e = false := collapseCode_of_flags hes he45.2 he45.1
      have hlecol := lowerCode_collapse hecol
      constructor
      · rw [List.map_cons, collapseRuns_cons, if_neg (by simp [hlecol.1])]
        simp only [List.head?_cons, ne_eq, Option.some_inj]
        exact hlecol.2
      · obtain ⟨x, hx⟩ : ∃ x, (pyStrip (t.filter keepCode)).getLast? = some x := by
          rw [hu]
          cases rest with
          | nil => exact ⟨e, rfl⟩
          | cons f tail =>
            have h2 : (e :: f :: tail) ≠ [] := by simp
            exact ⟨(e :: f :: tail).getLast h2, List.getLast?_eq_getLast _ h2⟩
        have hxs : isSpaceCode x = false := pyStrip_getLast hx
        have hx45 : x ≠ 45 ∧ x ≠ 95 := hchar x (mem_of_getLast hx)
        have hxcol : collapseCode x = false := collapseCode_of_flags hxs hx45.2 hx45.1
        have hlxcol := lowerCode_collapse hxcol
        have hmaplast : ((pyStrip (t.filter keepCode)).map lowerCode).getLast? =
            some (lowerCode x) := by
          rw [List.getLast?_map, hx]
          rfl
        have hfin := getLast_collapseRuns hlxcol.1 _ false hmaplast
        rw [← hu, hfin]
        simp only [ne_eq, Option.some_inj]
        exact hlxcol.2

/-! ## slugify output is a fixed point of slugify -/

theorem map_id_of_mem {f : Nat → Nat} :
    ∀ {l : List Nat}, (∀ c ∈ l, f c = c) → l.map f = l := by
  intro l
  induction l with
  | nil => intro _; rfl
  | cons d rest ih =>
    intro h
    rw [List.map_cons, h d (List.mem_cons_self _ _), ih]
    intro c hc
    exact h c (List.mem_cons_of_mem _ hc)

theorem dropWhile_eq_self_of {p : Nat → Bool} {l : List Nat}
    (h : ∀ c ∈ l, p c = false) : l.dropWhile p = l := by
  cases l with
  | nil => rfl
  | cons d rest =>
    rw [List.dropWhile_cons, if_neg]
    simp [h d (List.mem_cons_self _ _)]

theorem pyStrip_eq_self_of {l : List Nat} (h : ∀ c ∈ l, isSpaceCode c = false) :
    pyStrip l = l := by
  unfold pyStrip
  rw [dropWhile_eq_self_of h, dropWhile_eq_self_of, List.reverse_reverse]
  intro c hc
  exact h c (List.mem_reverse.1 hc)

theorem noAdjacentHyphens_tail {d : Nat} {rest : List Nat}
    (h : noAdjacentHyphens (d :: rest) = true) : noAdjacentHyphens rest = true := by
  cases rest with
  | nil => rfl
  | cons b tail =>
    simp only [noAdjacentHyphens, Bool.and_eq_true] at h
    exact h.2

theorem noAdjacentHyphens_head {rest : List Nat}
    (h : noAdjacentHyphens (45 :: rest) = true) : rest.head? ≠ some 45 := by
  cases rest with
  | nil => simp
  | cons b tail =>
    simp only [List.head?_cons, ne_eq, Option.some_inj]
    intro hb
    subst hb
    simp [noAdjacentHyphens] at h

theorem collapseRuns_fixed :
    ∀ (l : List Nat), (∀ c ∈ l, isOutCode c = true) → noAdjacentHyphens l = true →
      collapseRuns l false = l ∧ (l.head? ≠ some 45 → collapseRuns l true = l) := by
  intro l
  induction l with
  | nil => intro _ _; exact ⟨rfl, fun _ => rfl⟩
  | cons d rest ih =>
    intro hout hadj
    have hd := hout d (List.mem_cons_self _ _)
    have hrest : ∀ c ∈ rest, isOutCode c = true :=
      fun c hc => hout c (List.mem_cons_of_mem _ hc)
    have ihr := ih hrest (noAdjacentHyphens_tail hadj)
    by_cases h45 : d = 45
    · subst h45
      have hh : rest.head? ≠ some 45 := noAdjacentHyphens_head hadj
      constructor
      · rw [collapseRuns_cons, if_pos (by decide), if_neg (by simp), ihr.2 hh]
      · intro hcon
        simp at hcon
    · have hdc : collapseCode d = false := out_collapse hd h45
      have hrw : collapseRuns (d :: rest) false = d :: rest := by
        rw [collapseRuns_cons, if_neg (by simp [hdc]), ihr.1]
      refine ⟨hrw, fun _ => ?_⟩
      rw [collapseRuns_cons, if_neg (by simp [hdc]), ihr.1]

theorem slugify_fixed {s : List Nat} (hout : ∀ c ∈ s, isOutCode c = true)
    (hadj : noAdjacentHyphens s = true) (hne : s ≠ []) : slugify s = s := by
  have h1 : s.filter keepCode = s :=
    List.filter_eq_self.2 (fun c hc => out_keep (hout c hc))
  have h2 : pyStrip s = s := pyStrip_eq_self_of (fun c hc => out_not_space (hout c hc))
  have h3 : s.map lowerCode = s := map_id_of_mem (fun c hc => out_lower_fix (hout c hc))
  have h4 : collapseRuns s false = s := (collapseRuns_fixed s hout hadj).1
  simp only [slugify, h1, h2, h3, h4, if_neg hne]

/-! ## Claim C3 and C10 -/

/-- C3 counterexample: the claim says the slug never starts or ends with a
hyphen, but `slugify` only strips whitespace (via str.strip), not hyphens,
so the title "-a-" yields the slug "-a-", which starts and ends with one. -/
theorem C3_counterexample :
    slugify (codes "-a-") = codes "-a-" ∧
      (slugify (codes "-a-")).head? = some 45 ∧
      (slugify (codes "-a-")).getLast? = some 45 := by decide

/-- C3 (amended): for every title, slugify returns only lower-case word
characters and single (never adjacent) hyphens and is non-empty; it never
starts or ends with a hyphen PROVIDED the title contains no hyphen or
underscore characters (a leading/trailing hyphen or underscore in the title
survives, since only whitespace is stripped); titles reducing to nothing
give the fallback "post", and "Hello, World!" gives "hello-world". -/
theorem C3_slugify_amended :
    (∀ t : List Nat,
        (∀ c ∈ slugify t, isOutCode c = true) ∧
        noAdjacentHyphens (slugify t) = true ∧
        slugify t ≠ [] ∧
        ((∀ c ∈ t, c ≠ 45 ∧ c ≠ 95) →
          (slugify t).head? ≠ some 45 ∧ (slugify t).getLast? ≠ some 45)) ∧
    slugify (codes "") = codes "post" ∧
    slugify (codes "!!!") = codes "post" ∧
    slugify (codes "Hello, World!") = codes "hello-world" := by
  refine ⟨fun t => ⟨fun c hc => slugify_mem_out hc, slugify_noAdjacent t,
    slugify_ne_nil t, fun h => slugify_edges h⟩, ?_, ?_, ?_⟩ <;> decide

/-- Witness for C3 (amended) at the concrete title "ab". -/
theorem C3_slugify_amended_witness :
    (∀ c ∈ codes "ab", c ≠ 45 ∧ c ≠ 95) ∧
      (slugify (codes "ab")).head? ≠ some 45 := by
  constructor
  · decide
  · exact ((C3_slugify_amended.1 (codes "ab")).2.2.2 (by decide)).1

/-- C10: slugify is idempotent — applying it to its own output returns the
output unchanged (the output contains only word characters and single
hyphens, all of which the pipeline leaves fixed). -/
theorem C10_slugify_idempotent (t : List Nat) :
    slugify (slugify t) = slugify t :=
  slugify_fixed (fun _ hc => slugify_mem_out hc) (slugify_noAdjacent t)
    (slugify_ne_nil t)

/-! ## Tags

extract_tags (fetch_medium.py lines 101-115 and the identical copy in
fetch_devto.py lines 106-120) deduplicates stripped feed-entry terms with a
`seen` set; the Dev.to API tag_list handling (fetch_devto.py lines 181-188)
accepts a comma-separated string or a list and does not deduplicate. -/

/-- Python str.split on a comma: always at least one segment. -/
def splitComma : List Nat → List (List Nat)
  | [] => [[]]
  | c :: rest =>
    if c == 44 then [] :: splitComma rest
    else
      match splitComma rest with
      | [] => [[c]]
      | seg :: segs => (c :: seg) :: segs

/-- Dev.to API tag_list given as a comma-separated string:
strip each piece, keep only truthy (non-empty) results. -/
def devtoTagsOfString (s : List Nat) : List (List Nat) :=
  (splitComma s).filterMap
    (fun t => if pyStrip t = [] then none else some (pyStrip t))

/-- Dev.to API tag_list given as a list: keep truthy (non-empty) entries,
then strip each — stripping happens after the truthiness test. -/
def devtoTagsOfList (l : List (List Nat)) : List (List Nat) :=
  (l.filter (fun t => !t.isEmpty)).map pyStrip

/-- The three runtime shapes of the API tag_list value. -/
inductive TagListVal where
  | str (s : List Nat)
  | list (l : List (List Nat))
  | other
deriving DecidableEq

/-- Dispatch on the tag_list shape as parse_devto_entry does. -/
def devtoTags : TagListVal → List (List Nat)
  | .str s => devtoTagsOfString s
  | .list l => devtoTagsOfList l
  | .other => []

/-- Feed-entry tag terms: each term is either missing or a string. -/
def extract_tags_aux : List (Option (List Nat)) → List (List Nat) → List (List Nat)
  | [], _ => []
  | t :: rest, seen =>
    match t with
    | none => extract_tags_aux rest seen
    | some term =>
      if term = [] then extract_tags_aux rest seen
      else
        if pyStrip term = [] || seen.contains (pyStrip term) then
          extract_tags_aux rest seen
        else pyStrip term :: extract_tags_aux rest (pyStrip term :: seen)

/-- extract_tags: stripped terms, empties dropped, first occurrence kept. -/
def extract_tags (terms : List (Option (List Nat))) : List (List Nat) :=
  extract_tags_aux terms []

/-- The stripped non-empty terms, in feed order, duplicates retained. -/
def normalizedTerms (terms : List (Option (List Nat))) : List (List Nat) :=
  terms.filterMap
    (fun t => match t with
      | none => none
      | some term =>
        if term = [] then none
        else if pyStrip term = [] then none else some (pyStrip term))

/-- Modelled from the spec: keep the first occurrence of each string,
dropping later exact duplicates. -/
def firstDedup : List (List Nat) → List (List Nat)
  | [] => []
  | x :: rest => x :: firstDedup (rest.filter (fun y => !(y == x)))
termination_by l => l.length
decreasing_by
  simp only [List.length_cons]
  exact Nat.lt_succ_of_le (List.length_filter_le _ _)

theorem mem_firstDedup {y : List Nat} :
    ∀ (l : List (List Nat)), y ∈ firstDedup l → y ∈ l := by
  intro l
  induction l using firstDedup.induct with
  | case1 => intro h; simp [firstDedup] at h
  | case2 x rest ih =>
    intro h
    rw [firstDedup] at h
    rcases List.mem_cons.1 h with rfl | h2
    · exact List.mem_cons_self _ _
    · exact List.mem_cons_of_mem _ (List.mem_filter.1 (ih h2)).1

theorem nodup_firstDedup : ∀ (l : List (List Nat)), (firstDedup l).Nodup := by
  intro l
  induction l using firstDedup.induct with
  | case1 => simp [firstDedup]
  | case2 x rest ih =>
    rw [firstDedup]
    refine List.nodup_cons.2 ⟨?_, ih⟩
    intro hmem
    have := (List.mem_filter.1 (mem_firstDedup _ hmem)).2
    simp at this

theorem extract_tags_aux_eq :
    ∀ (terms : List (Option (List Nat))) (seen : List (List Nat)),
      extract_tags_aux terms seen =
        firstDedup ((normalizedTerms terms).filter (fun y => !(seen.contains y))) := by
  intro terms
  induction terms with
  | nil => intro seen; simp [extract_tags_aux, normalizedTerms, firstDedup]
  | cons t rest ih =>
    intro seen
    cases t with
    | none =>
      have e1 : extract_tags_aux (none :: rest) seen = extract_tags_aux rest seen := rfl
      have e2 : normalizedTerms (none :: rest) = normalizedTerms rest := by
        simp [normalizedTerms, List.filterMap_cons]
      rw [e1, e2]
      exact ih seen
    | some term =>
      by_cases hterm : term = []
      · have e1 : extract_tags_aux (some term :: rest) seen = extract_tags_aux rest seen := by
          simp [extract_tags_aux, hterm]
        have e2 : normalizedTerms (some term :: rest) = normalizedTerms rest := by
          simp [normalizedTerms, List.filterMap_cons, hterm]
        rw [e1, e2]
        exact ih seen
      · by_cases hn : pyStrip term = []
        · have e1 : extract_tags_aux (some term :: rest) seen = extract_tags_aux rest seen := by
            simp [extract_tags_aux, hterm, hn]
          have e2 : normalizedTerms (some term :: rest) = normalizedTerms rest := by
            simp [normalizedTerms, List.filterMap_cons, hterm, hn]
          rw [e1, e2]
          exact ih seen
        · have e2 : normalizedTerms (some term :: rest) =
              pyStrip term :: normalizedTerms rest := by
            simp [normalizedTerms, List.filterMap_cons, hterm, hn]
          by_cases hseen : seen.contains (pyStrip term) = true
          · have hmem : pyStrip term ∈ seen := by simpa using hseen
            have e1 : extract_tags_aux (some term :: rest) seen =
                extract_tags_aux rest seen := by
              simp [extract_tags_aux, hterm, hn, hmem]
            rw [e1, e2, List.filter_cons, if_neg (by simp [hmem])]
            exact ih seen
          · have hseen2 : seen.contains (pyStrip term) = false := by
              simpa using hseen
            have hmem : pyStrip term ∉ seen := by simpa using hseen2
            have e1 : extract_tags_aux (some term :: rest) seen =
                pyStrip term :: extract_tags_aux rest (pyStrip term :: seen) := by
              simp [extract_tags_aux, hterm, hn, hmem]
            rw [e1, e2, List.filter_cons, if_pos (by simp [hmem]), firstDedup]
            congr 1
            rw [ih (pyStrip term :: seen), List.filter_filter]
            congr 1
            refine List.filter_congr ?_
            intro y _
            simp only [List.contains_cons, Bool.not_or, Bool.and_comm]

theorem extract_tags_eq_firstDedup (terms : List (Option (List Nat))) :
    extract_tags terms = firstDedup (normalizedTerms terms) := by
  rw [extract_tags, extract_tags_aux_eq terms []]
  congr 1
  rw [List.filter_eq_self]
  intro a _
  simp

theorem dropWhile_of_head_false {p : Nat → Bool} {l : List Nat}
    (h : ∀ x, l.head? = some x → p x = false) : l.dropWhile p = l := by
  cases l with
  | nil => rfl
  | cons d rest =>
    rw [List.dropWhile_cons, if_neg]
    simp [h d rfl]

theorem pyStrip_fix {s : List Nat}
    (hh : ∀ x, s.head? = some x → isSpaceCode x = false)
    (hl : ∀ x, s.getLast? = some x → isSpaceCode x = false) : pyStrip s = s := by
  unfold pyStrip
  rw [dropWhile_of_head_false hh, dropWhile_of_head_false, List.reverse_reverse]
  intro x hx
  rw [List.head?_reverse] at hx
  exact hl x hx

theorem pyStrip_idem (l : List Nat) : pyStrip (pyStrip l) = pyStrip l :=
  pyStrip_fix (fun _ hx => pyStrip_head hx) (fun _ hx => pyStrip_getLast hx)

theorem devtoTagsOfString_trimmed {s x : List Nat}
    (h : x ∈ devtoTagsOfString s) : x ≠ [] ∧ pyStrip x = x := by
  rcases List.mem_filterMap.1 h with ⟨t, _, ht⟩
  by_cases hn : pyStrip t = []
  · rw [if_pos hn] at ht
    exact absurd ht (by simp)
  · rw [if_neg hn] at ht
    have hx := Option.some_inj.1 ht
    subst hx
    exact ⟨hn, pyStrip_idem t⟩

/-! ## HTML document model (for the Medium pipeline, fetch_medium.py)

A parsed BeautifulSoup document is modelled as a forest of nodes: text
runs, images (src/alt attributes), anchors (href attribute), headings
(h1-h6 and, permissively, any level) and block elements.  In-place
mutation (decompose, tag renaming) is modelled by rebuilding the forest. -/

/-- Block-element tags the code queries for (p, div, section, anything else). -/
inductive BTag where
  | p
  | div
  | sec
  | generic (name : List Nat)
deriving DecidableEq

/-- One node of the parsed HTML document. -/
inductive HNode where
  | text (s : List Nat)
  | img (src : Option (List Nat)) (alt : List Nat)
  | anchor (href : Option (List Nat)) (children : List HNode)
  | heading (level : Nat) (children : List HNode)
  | block (tag : BTag) (children : List HNode)

/-- Substring test used to model `pattern.search`. -/
def isPrefixList : List Nat → List Nat → Bool
  | [], _ => true
  | _ :: _, [] => false
  | a :: as, b :: bs => a == b && isPrefixList as bs

/-- hay contains needle as a contiguous substring. -/
def containsSub (needle : List Nat) : List Nat → Bool
  | [] => needle.isEmpty
  | c :: rest => isPrefixList needle (c :: rest) || containsSub needle rest

/-- The tracking-pixel pattern (fetch_medium.py line 25), a lowercase literal. -/
def trackingNeedle : List Nat := codes "medium.com/_/stat"

/-- is_tracking_image (fetch_medium.py lines 84-90): case-insensitive
substring match of the tracking pattern against the lowered URL. -/
def is_tracking_image (url : List Nat) : Bool :=
  containsSub trackingNeedle (url.map lowerCode)

/-! ### URL splitting (urllib.parse, used by clean_url) -/

/-- Split a string at the first occurrence of a separator code point. -/
def splitAtChar (sep : Nat) : List Nat → List Nat × Option (List Nat)
  | [] => ([], none)
  | c :: rest =>
    if c == sep then ([], some rest)
    else
      let r := splitAtChar sep rest
      (c :: r.1, r.2)

/-- ASCII letter. -/
def isAlphaCode (c : Nat) : Bool := isUpperAlpha c || isLowerAlpha c

/-- Characters allowed in a URL scheme after the first letter. -/
def isSchemeCode (c : Nat) : Bool :=
  isUpperAlpha c || isLowerAlpha c || isDigitCode c || c == 43 || c == 45 || c == 46

/-- A non-empty scheme: a letter followed by scheme characters. -/
def validScheme : List Nat → Bool
  | [] => false
  | c :: rest => isAlphaCode c && rest.all isSchemeCode

/-- The five components of urllib.parse.urlsplit. -/
structure UrlParts where
  scheme : List Nat
  netloc : List Nat
  path : List Nat
  query : List Nat
  fragment : List Nat

/-- urlsplit: scheme (lowercased), then //netloc, then #fragment, then ?query. -/
def urlsplit (url : List Nat) : UrlParts :=
  let colon := splitAtChar 58 url
  let schemeRest : List Nat × List Nat :=
    match colon.2 with
    | some after => if validScheme colon.1 then (colon.1.map lowerCode, after) else ([], url)
    | none => ([], url)
  let netlocRest : List Nat × List Nat :=
    match schemeRest.2 with
    | 47 :: 47 :: r =>
      let nl := r.takeWhile (fun c => !(c == 47 || c == 63 || c == 35))
      (nl, r.drop nl.length)
    | other => ([], other)
  let frag := splitAtChar 35 netlocRest.2
  let q := splitAtChar 63 frag.1
  ⟨schemeRest.1, netlocRest.1, q.1, q.2.getD [], frag.2.getD []⟩

/-- urlunsplit with empty query and fragment, as clean_url calls it. -/
def urlunsplitNoQuery (scheme netloc path : List Nat) : List Nat :=
  let p1 :=
    if netloc ≠ [] ∨ path.take 2 = [47, 47] then
      [47, 47] ++ netloc ++ (if path ≠ [] ∧ path.head? ≠ some 47 then 47 :: path else path)
    else path
  if scheme ≠ [] then scheme ++ 58 :: p1 else p1

/-- clean_url (cli.py lines 37-40): drop query and fragment, reassemble. -/
def clean_url (url : List Nat) : List Nat :=
  let parts := urlsplit url
  urlunsplitNoQuery parts.scheme parts.netloc parts.path

/-! ### Collectors over the document -/

mutual
def nodeHeadingLevels : HNode → List Nat
  | .text _ => []
  | .img _ _ => []
  | .anchor _ cs => forestHeadingLevels cs
  | .heading l cs =>
    (if 1 ≤ l ∧ l ≤ 6 then [l] else []) ++ forestHeadingLevels cs
  | .block _ cs => forestHeadingLevels cs
def forestHeadingLevels : List HNode → List Nat
  | [] => []
  | n :: rest => nodeHeadingLevels n ++ forestHeadingLevels rest
end

mutual
def nodeImgSrcs : HNode → List (Option (List Nat))
  | .text _ => []
  | .img src _ => [src]
  | .anchor _ cs => forestImgSrcs cs
  | .heading _ cs => forestImgSrcs cs
  | .block _ cs => forestImgSrcs cs
def forestImgSrcs : List HNode → List (Option (List Nat))
  | [] => []
  | n :: rest => nodeImgSrcs n ++ forestImgSrcs rest
end

mutual
def nodeTexts : HNode → List (List Nat)
  | .text s => [s]
  | .img _ _ => []
  | .anchor _ cs => forestTexts cs
  | .heading _ cs => forestTexts cs
  | .block _ cs => forestTexts cs
def forestTexts : List HNode → List (List Nat)
  | [] => []
  | n :: rest => nodeTexts n ++ forestTexts rest
end

/-- Join fragments with a single space (get_text separator). -/
def joinWithSpace : List (List Nat) → List Nat
  | [] => []
  | [s] => s
  | s :: rest => s ++ 32 :: joinWithSpace rest

/-- element.get_text(separator=" ", strip=True): strip each text fragment,
drop the empty ones, join with spaces. -/
def getTextStrip (cs : List HNode) : List Nat :=
  joinWithSpace (((forestTexts cs).map pyStrip).filter (fun s => !s.isEmpty))

mutual
def nodeFindAnchor : HNode → Option (List Nat)
  | .text _ => none
  | .img _ _ => none
  | .anchor (some h) _ => some h
  | .anchor none cs => forestFindAnchor cs
  | .heading _ cs => forestFindAnchor cs
  | .block _ cs => forestFindAnchor cs
def forestFindAnchor : List HNode → Option (List Nat)
  | [] => none
  | n :: rest =>
    match nodeFindAnchor n with
    | some h => some h
    | none => forestFindAnchor rest
end

/-! ### normalize_headings (fetch_medium.py lines 29-45) -/

/-- Python min over a non-empty list (0 for the impossible empty case). -/
def pyMin : List Nat → Nat
  | [] => 0
  | h :: t => t.foldl Nat.min h

/-- The renaming applied to one heading level: add `2 - min`, clamp to [2,6]. -/
def newHeadingLevel (minL l : Nat) : Nat :=
  let v : Int := (l : Int) + (2 - (minL : Int))
  if v < 2 then 2 else if v > 6 then 6 else v.toNat

mutual
def nodeRename (minL : Nat) : HNode → HNode
  | .text s => .text s
  | .img src alt => .img src alt
  | .anchor h cs => .anchor h (forestRename minL cs)
  | .heading l cs =>
    .heading (if 1 ≤ l ∧ l ≤ 6 then newHeadingLevel minL l else l)
      (forestRename minL cs)
  | .block t cs => .block t (forestRename minL cs)
def forestRename (minL : Nat) : List HNode → List HNode
  | [] => []
  | n :: rest => nodeRename minL n :: forestRename minL rest
end

/-- normalize_headings: no headings means no change; otherwise rename every
heading using the offset determined by the minimum collected level. -/
def normalize_headings (soup : List HNode) : List HNode :=
  match forestHeadingLevels soup with
  | [] => soup
  | _ :: _ => forestRename (pyMin (forestHeadingLevels soup)) soup

/-! ### pop_first_image (lines 48-58) and remove_tracking_images (93-98) -/

mutual
def popFirstNode : HNode → Option HNode × Option (List Nat × List Nat)
  | .text s => (some (.text s), none)
  | .img none _ => (none, none)
  | .img (some src) alt =>
    if is_tracking_image src then (none, none) else (none, some (src, alt))
  | .anchor h cs =>
    let r := popFirstForest cs
    (some (.anchor h r.1), r.2)
  | .heading l cs =>
    let r := popFirstForest cs
    (some (.heading l r.1), r.2)
  | .block t cs =>
    let r := popFirstForest cs
    (some (.block t r.1), r.2)
def popFirstForest : List HNode → List HNode × Option (List Nat × List Nat)
  | [] => ([], none)
  | n :: rest =>
    match popFirstNode n with
    | (kept, some f) => (kept.toList ++ rest, some f)
    | (kept, none) =>
      let r := popFirstForest rest
      (kept.toList ++ r.1, r.2)
end

/-- pop_first_image: drop src-less and tracking images up to and including
the first real image, whose src and alt are returned. -/
def pop_first_image (soup : List HNode) :
    List HNode × Option (List Nat) × List Nat :=
  let r := popFirstForest soup
  match r.2 with
  | some f => (r.1, some f.1, f.2)
  | none => (r.1, none, [])

mutual
def removeTrackingNode : HNode → Option HNode
  | .text s => some (.text s)
  | .img none _ => none
  | .img (some src) alt =>
    if is_tracking_image src then none else some (.img (some src) alt)
  | .anchor h cs => some (.anchor h (removeTrackingForest cs))
  | .heading l cs => some (.heading l (removeTrackingForest cs))
  | .block t cs => some (.block t (removeTrackingForest cs))
def removeTrackingForest : List HNode → List HNode
  | [] => []
  | n :: rest => (removeTrackingNode n).toList ++ removeTrackingForest rest
end

/-- remove_tracking_images: drop every remaining src-less or tracking image. -/
def remove_tracking_images (soup : List HNode) : List HNode :=
  removeTrackingForest soup

/-! ### extract_original_metadata (lines 61-81)

The date-phrase extraction (`ORIGINAL_DATE_PATTERN` capture plus
`datetime.strptime("%B %d, %Y")`) is modelled by the external function
`findOrigDate` from the element text to an optional UTC timestamp, `none`
covering both a missing match and an unparsable date. -/

/-- The "Originally published at" literal, lowercase for the IGNORECASE search. -/
def origNeedle : List Nat := codes "originally published at"

/-- The override URL and date computed from a matching element. -/
def origResult (findOrigDate : List Nat → Option Nat) (txt : List Nat)
    (cs : List HNode) : Option (List Nat) × Option Nat :=
  let rawUrl := forestFindAnchor cs
  let url := match rawUrl with
    | some h => if h = [] then none else some (clean_url h)
    | none => none
  (url, findOrigDate txt)

mutual
def extractOrigNode (fd : List Nat → Option Nat) :
    HNode → Option HNode × Option (Option (List Nat) × Option Nat)
  | .text s => (some (.text s), none)
  | .img src alt => (some (.img src alt), none)
  | .anchor h cs =>
    let r := extractOrigForest fd cs
    (some (.anchor h r.1), r.2)
  | .heading l cs =>
    let r := extractOrigForest fd cs
    (some (.heading l r.1), r.2)
  | .block t cs =>
    if t = BTag.p ∨ t = BTag.div ∨ t = BTag.sec then
      let txt := getTextStrip cs
      if txt ≠ [] ∧ containsSub origNeedle (txt.map lowerCode) = true then
        (none, some (origResult fd txt cs))
      else
        let r := extractOrigForest fd cs
        (some (.block t r.1), r.2)
    else
      let r := extractOrigForest fd cs
      (some (.block t r.1), r.2)
def extractOrigForest (fd : List Nat → Option Nat) :
    List HNode → List HNode × Option (Option (List Nat) × Option Nat)
  | [] => ([], none)
  | n :: rest =>
    match extractOrigNode fd n with
    | (kept, some r) => (kept.toList ++ rest, some r)
    | (kept, none) =>
      let r := extractOrigForest fd rest
      (kept.toList ++ r.1, r.2)
end

/-- extract_original_metadata: find the first matching block element,
remove it, and return the override URL and date it yields. -/
def extract_original_metadata (fd : List Nat → Option Nat) (soup : List HNode) :
    Option (List Nat) × Option Nat × List HNode :=
  let r := extractOrigForest fd soup
  match r.2 with
  | some res => (res.1, res.2, r.1)
  | none => (none, none, r.1)

/-! ### Markdown conversion

Model of markdownify with ATX heading style: text passes through, images
and anchors render with their URLs, headings render with hash marks.  The
library's exact inter-block whitespace is not relied on by any claim. -/

/-- n hash marks. -/
def hashes : Nat → List Nat
  | 0 => []
  | n + 1 => 35 :: hashes n

mutual
def nodeToMarkdown : HNode → List Nat
  | .text s => s
  | .img src alt => codes "![" ++ alt ++ codes "](" ++ src.getD [] ++ codes ")"
  | .anchor href cs =>
    codes "[" ++ forestToMarkdown cs ++ codes "](" ++ href.getD [] ++ codes ")"
  | .heading l cs =>
    codes "\n\n" ++ hashes l ++ 32 :: forestToMarkdown cs ++ codes "\n\n"
  | .block _ cs => codes "\n\n" ++ forestToMarkdown cs ++ codes "\n\n"
def forestToMarkdown : List HNode → List Nat
  | [] => []
  | n :: rest => nodeToMarkdown n ++ forestToMarkdown rest
end

/-! ## Errors, the post record, and parse_publish_date -/

/-- The exception kinds the scripts distinguish: ValueError (caught at the
per-entry boundary), transport/HTTP errors and attribute errors (not caught). -/
inductive PyErr where
  | valueError (msg : List Nat)
  | transportError (msg : List Nat)
  | attributeError (msg : List Nat)
deriving DecidableEq

/-- The post record (blog_post.py).  NOTE: the source dataclass declares only
title/slug/date/original_url/markdown_body/tags/image_url/image_alt, yet
parse_devto_entry passes series_title/series_order keyword arguments and
build_front_matter reads them (see claim C1, settled with blogPostFields
below); the record is modelled here with the two optional fields the rest of
the code requires.  Timestamps are abstract UTC values (Nat). -/
structure BlogPost where
  title : List Nat
  slug : List Nat
  date : Nat
  original_url : List Nat
  markdown_body : List Nat
  tags : List (List Nat)
  image_url : Option (List Nat)
  image_alt : List Nat
  series_title : Option (List Nat)
  series_order : Option Nat
deriving DecidableEq

/-- The fields of the BlogPost dataclass exactly as blog_post.py declares
them (lines 8-18). -/
def blogPostFields : List String :=
  ["title", "slug", "date", "original_url", "markdown_body", "tags",
   "image_url", "image_alt"]

/-- The keyword arguments parse_devto_entry passes to the BlogPost
constructor (fetch_devto.py lines 205-216). -/
def devtoBlogPostKwargs : List String :=
  ["title", "slug", "date", "original_url", "markdown_body", "tags",
   "image_url", "image_alt", "series_title", "series_order"]

/-- Python dataclass semantics: a keyword construction succeeds iff every
keyword names a declared field, otherwise it raises TypeError. -/
def dataclassAcceptsKwargs (fields kwargs : List String) : Bool :=
  kwargs.all (fun k => fields.contains k)

/-- The message of the missing-date ValueError (cli.py line 50). -/
def missingDateMsg (title : List Nat) : List Nat :=
  codes "Post '" ++ title ++ codes "' is missing a publish date."

/-- parse_publish_date (cli.py lines 43-54).  The permissive RFC-2822 parse
(email.utils.parsedate_to_datetime) and the normalisation to UTC are
modelled by the external function `parsedate` returning the final UTC
timestamp, `none` meaning the library raised on a malformed value. -/
def parse_publish_date (parsedate : List Nat → Option Nat)
    (raw fallback : Option (List Nat)) (title : List Nat) : Except PyErr Nat :=
  let value : Option (List Nat) :=
    match raw with
    | some s => if s = [] then fallback else some s
    | none => fallback
  match value with
  | none => .error (.valueError (missingDateMsg title))
  | some v =>
    if v = [] then .error (.valueError (missingDateMsg title))
    else
      match parsedate v with
      | some d => .ok d
      | none => .error (.valueError (codes "invalid date value"))

/-! ## Medium adapter (fetch_medium.py) -/

/-- One Medium feed entry as the adapter reads it: `content` is the value of
the first element of a non-empty content list (`none` models a missing or
empty list), the other fields are optional strings, `tags` the term list. -/
structure MediumEntry where
  title : Option (List Nat)
  published : Option (List Nat)
  updated : Option (List Nat)
  content : Option (List Nat)
  summary : Option (List Nat)
  link : Option (List Nat)
  tags : List (Option (List Nat))

/-- External collaborators of the Medium adapter: the HTML parser
(BeautifulSoup), the RFC-2822 date parser, and the "on Month day, year"
date-phrase extraction of extract_original_metadata. -/
structure MediumExt where
  parseHtml : List Nat → List HNode
  parsedate : List Nat → Option Nat
  findOrigDate : List Nat → Option Nat

/-- Python truthiness of an optional string. -/
def optTruthy : Option (List Nat) → Bool
  | none => false
  | some s => !s.isEmpty

/-- parse_medium_entry (fetch_medium.py lines 140-181). -/
def parse_medium_entry (ext : MediumExt) (entry : MediumEntry) :
    Except PyErr BlogPost :=
  match entry.title with
  | none => .error (.attributeError (codes "object has no attribute title"))
  | some title =>
    match parse_publish_date ext.parsedate entry.published entry.updated title with
    | .error e => .error e
    | .ok published =>
      let contentHtml : Option (List Nat) :=
        match entry.content with
        | some v => some v
        | none =>
          match entry.summary with
          | some s => if s.isEmpty then none else some s
          | none => none
      match contentHtml with
      | none => .error (.valueError (codes "Entry does not contain HTML content."))
      | some html =>
        if html.isEmpty then
          .error (.valueError (codes "Entry does not contain HTML content."))
        else
          let soup0 := ext.parseHtml html
          let orig := extract_original_metadata ext.findOrigDate soup0
          let popped := pop_first_image orig.2.2
          let soup3 := remove_tracking_images popped.1
          let soup4 := normalize_headings soup3
          let markdownBody := pyStrip (forestToMarkdown soup4)
          let originalUrl : Option (List Nat) :=
            match orig.1 with
            | some u => if u.isEmpty then entry.link else some u
            | none => entry.link
          match originalUrl with
          | none => .error (.valueError (codes "Entry is missing the original URL."))
          | some u =>
            if u.isEmpty then
              .error (.valueError (codes "Entry is missing the original URL."))
            else
              .ok
                { title := title
                  slug := slugify title
                  date := match orig.2.1 with
                    | some d => d
                    | none => published
                  original_url := clean_url u
                  markdown_body := markdownBody
                  tags := extract_tags entry.tags
                  image_url := popped.2.1
                  image_alt := popped.2.2
                  series_title := none
                  series_order := none }

/-- Python truthiness of `entry.get("title")` in the fetch loops. -/
def entryTitle : Option (List Nat) → Option (List Nat)
  | none => none
  | some t => if t.isEmpty then none else some t

/-- fetch_medium_posts (fetch_medium.py lines 118-137), given the parsed
feed entries (feedparser is the external feed client; a feed-level parse
failure aborts the run before this loop).  Returns the collected posts and
the console messages; only ValueError is caught per entry. -/
def fetch_medium_posts (ext : MediumExt) :
    List MediumEntry → Except PyErr (List BlogPost × List (List Nat))
  | [] => .ok ([], [])
  | e :: rest =>
    match entryTitle e.title with
    | none =>
      match fetch_medium_posts ext rest with
      | .ok r => .ok (r.1, codes "Skipping entry without a title." :: r.2)
      | .error err => .error err
    | some title =>
      match parse_medium_entry ext e with
      | .ok p =>
        match fetch_medium_posts ext rest with
        | .ok r => .ok (p :: r.1, r.2)
        | .error err => .error err
      | .error (.valueError msg) =>
        match fetch_medium_posts ext rest with
        | .ok r =>
          .ok (r.1,
            (codes "Skipping Medium entry '" ++ title ++ codes "': " ++ msg) :: r.2)
        | .error err => .error err
      | .error err => .error err

/-! ## Dev.to adapter (fetch_devto.py) -/

/-- Split on every occurrence of a separator (Python str.split). -/
def splitOn (sep : Nat) : List Nat → List (List Nat)
  | [] => [[]]
  | c :: rest =>
    if c == sep then [] :: splitOn sep rest
    else
      match splitOn sep rest with
      | [] => [[c]]
      | seg :: segs => (c :: seg) :: segs

/-- extract_devto_article_id (fetch_devto.py lines 20-31): the first two
non-empty path segments joined as username/slug. -/
def extract_devto_article_id (url : List Nat) : Option (List Nat) :=
  let path := (urlsplit url).path
  if path = [] then none
  else
    match (splitOn 47 path).filter (fun p => !p.isEmpty) with
    | p0 :: p1 :: _ => some (p0 ++ 47 :: p1)
    | _ => none

/-- extract_devto_slug (fetch_devto.py lines 92-103): the last non-empty
path segment of the entry link, needing at least two segments. -/
def extract_devto_slug (link : Option (List Nat)) : Option (List Nat) :=
  match link with
  | none => none
  | some l =>
    if l.isEmpty then none
    else
      let path := (urlsplit l).path
      if path = [] then none
      else
        let parts := (splitOn 47 path).filter (fun p => !p.isEmpty)
        if parts.length < 2 then none else parts.getLast?

/-- The deny-listed legacy slugs (fetch_devto.py line 17). -/
def DEVTO_SKIP_SLUGS : List (List Nat) :=
  [codes "building-a-chess-game-with-python-and-openai-3knn"]

/-- One thumbnail of the feed entry's media_thumbnail list. -/
structure Thumb where
  url : Option (List Nat)
  title : Option (List Nat)

/-- One Dev.to feed entry as the adapter reads it. -/
structure DevtoEntry where
  title : Option (List Nat)
  published : Option (List Nat)
  updated : Option (List Nat)
  link : Option (List Nat)
  url : Option (List Nat)
  mediaThumbnail : List Thumb
  tags : List (Option (List Nat))

/-- The article payload of GET /api/articles/username/slug, with the fields
parse_devto_entry reads. -/
structure ApiArticle where
  body_markdown : Option (List Nat)
  cover_image : Option (List Nat)
  title : Option (List Nat)
  tag_list : TagListVal
  collection_id : Option Nat
  id : Option Nat

/-- External collaborators of the Dev.to adapter.  `api` models
fetch_devto_article (lines 34-39): requests.get + raise_for_status is a
transportError, response.json failing is a valueError (JSONDecodeError is a
ValueError).  fetch_series_title (42-63) and calculate_series_order (66-89)
wrap their network requests and parsing in a catch-all and return None on
any failure, so their results are modelled as external optional values. -/
structure DevtoExt where
  parsedate : List Nat → Option Nat
  api : List Nat → Except PyErr ApiArticle
  seriesTitle : List Nat → Nat → Option (List Nat)
  seriesOrder : List Nat → Nat → Nat → Option Nat

/-- Python truthiness of an optional number (0 and None are falsy). -/
def natTruthy : Option Nat → Bool
  | none => false
  | some n => n != 0

/-- username from the article id: the part before the first slash, when the
id contains a slash (fetch_devto.py line 196). -/
def usernameOf (article_id : List Nat) : Option (List Nat) :=
  if article_id.contains 47 then some (splitAtChar 47 article_id).1 else none

/-- parse_devto_entry (fetch_devto.py lines 147-216). -/
def parse_devto_entry (ext : DevtoExt) (entry : DevtoEntry) :
    Except PyErr BlogPost :=
  match entry.title with
  | none => .error (.attributeError (codes "object has no attribute title"))
  | some title =>
    match parse_publish_date ext.parsedate entry.published entry.updated title with
    | .error e => .error e
    | .ok published =>
      let originalUrl0 : Option (List Nat) :=
        match entry.link with
        | some l => if l.isEmpty then entry.url else some l
        | none => entry.url
      match originalUrl0 with
      | none => .error (.valueError (codes "Entry is missing the original URL."))
      | some u0 =>
        if u0.isEmpty then
          .error (.valueError (codes "Entry is missing the original URL."))
        else
          let original_url := clean_url u0
          match extract_devto_article_id original_url with
          | none =>
            .error (.valueError (codes "Could not extract article ID from Dev.to URL."))
          | some article_id =>
            match ext.api article_id with
            | .error e => .error e
            | .ok a =>
              let markdown_body := pyStrip (a.body_markdown.getD [])
              if markdown_body.isEmpty then
                .error (.valueError (codes "Article does not contain markdown content."))
              else
                let image : Option (List Nat) × List Nat :=
                  if optTruthy a.cover_image then (a.cover_image, a.title.getD [])
                  else
                    match entry.mediaThumbnail with
                    | t :: _ =>
                      match t.url with
                      | some u =>
                        if u.isEmpty then (a.cover_image, a.title.getD [])
                        else (some u, t.title.getD [])
                      | none => (a.cover_image, a.title.getD [])
                    | [] => (a.cover_image, a.title.getD [])
                let tags0 := devtoTags a.tag_list
                let series : Option (List Nat) × Option Nat :=
                  if natTruthy a.collection_id then
                    match usernameOf article_id with
                    | some username =>
                      (ext.seriesTitle username (a.collection_id.getD 0),
                        if natTruthy a.id then
                          ext.seriesOrder username (a.collection_id.getD 0) (a.id.getD 0)
                        else none)
                    | none => (none, none)
                  else (none, none)
                .ok
                  { title := title
                    slug := slugify title
                    date := published
                    original_url := original_url
                    markdown_body := markdown_body
                    tags := if tags0.isEmpty then extract_tags entry.tags else tags0
                    image_url := image.1
                    image_alt := image.2
                    series_title := series.1
                    series_order := series.2 }

/-- The deny-list test of the fetch loop (fetch_devto.py line 137):
a truthy extracted slug that belongs to the skip set. -/
def devtoSkip (e : DevtoEntry) : Bool :=
  match extract_devto_slug e.link with
  | some s => !s.isEmpty && DEVTO_SKIP_SLUGS.contains s
  | none => false

/-- fetch_devto_posts (fetch_devto.py lines 123-144), given the parsed feed
entries.  Only ValueError is caught at the per-entry boundary; transport
and attribute errors escape the loop. -/
def fetch_devto_posts (ext : DevtoExt) :
    List DevtoEntry → Except PyErr (List BlogPost × List (List Nat))
  | [] => .ok ([], [])
  | e :: rest =>
    match entryTitle e.title with
    | none =>
      match fetch_devto_posts ext rest with
      | .ok r => .ok (r.1, codes "Skipping entry without a title." :: r.2)
      | .error err => .error err
    | some title =>
      if devtoSkip e then fetch_devto_posts ext rest
      else
        match parse_devto_entry ext e with
        | .ok p =>
          match fetch_devto_posts ext rest with
          | .ok r => .ok (p :: r.1, r.2)
          | .error err => .error err
        | .error (.valueError msg) =>
          match fetch_devto_posts ext rest with
          | .ok r =>
            .ok (r.1,
              (codes "Skipping Dev.to entry '" ++ title ++ codes "': " ++ msg) :: r.2)
          | .error err => .error err
        | .error err => .error err

/-! ## Post writer (cli.py): image filename and front matter -/

/-- Index of the last dot in a name, if any. -/
def rfindDot : List Nat → Option Nat
  | [] => none
  | c :: rest =>
    match rfindDot rest with
    | some k => some (k + 1)
    | none => if c == 46 then some 0 else none

/-- pathlib suffix of a URL path: the extension of the final non-empty
path component, present only when the dot is neither first nor last. -/
def pathSuffix (path : List Nat) : List Nat :=
  let name := (((splitOn 47 path).filter (fun p => !p.isEmpty)).getLast?).getD []
  match rfindDot name with
  | some k => if 0 < k ∧ k < name.length - 1 then name.drop k else []
  | none => []

/-- The extension allow-list (cli.py line 106). -/
def allowedImageExts : List (List Nat) :=
  [codes ".jpg", codes ".jpeg", codes ".png", codes ".gif", codes ".webp"]

/-- determine_image_filename (cli.py lines 103-108): slug plus the lowered
URL-path extension when allow-listed, else ".jpg". -/
def determine_image_filename (slug image_url : List Nat) : List Nat :=
  let suffix := (pathSuffix (urlsplit image_url).path).map lowerCode
  slug ++ (if allowedImageExts.contains suffix then suffix else codes ".jpg")

/-- WEB_IMAGE_PREFIX (cli.py line 27). -/
def webImageDir : List Nat := codes "images/writing"

/-- The site-relative image path write_post records when the post has a
truthy image URL (cli.py lines 116-122). -/
def write_post_image_web_path (post : BlogPost) : Option (List Nat) :=
  match post.image_url with
  | some u =>
    if u.isEmpty then none
    else some (webImageDir ++ 47 :: determine_image_filename post.slug u)
  | none => none

/-- The value kinds to_toml_value distinguishes. -/
inductive TomlVal where
  | b (v : Bool)
  | s (v : List Nat)
  | n (v : Nat)
  | date (v : Nat)
  | strs (v : List (List Nat))

/-- Decimal rendering (timestamps are abstract, so isoformat is modelled as
the decimal form of the abstract value). -/
def natDigits (n : Nat) : List Nat := codes (toString n)

/-- One JSON string-escape step (json.dumps character escaping). -/
def jsonEscapeChar (c : Nat) : List Nat :=
  if c == 34 then [92, 34]
  else if c == 92 then [92, 92]
  else if c == 10 then [92, 110]
  else if c == 9 then [92, 116]
  else if c == 13 then [92, 114]
  else if c == 8 then [92, 98]
  else if c == 12 then [92, 102]
  else if c < 32 then
    [92, 117, 48, 48,
      (if c / 16 < 10 then 48 + c / 16 else 87 + c / 16),
      (if c % 16 < 10 then 48 + c % 16 else 87 + c % 16)]
  else [c]

/-- json.dumps of a string. -/
def jsonDumpsStr (s : List Nat) : List Nat :=
  34 :: (s.flatMap jsonEscapeChar) ++ [34]

/-- Comma-space-joined pieces. -/
def joinCommaSpace : List (List Nat) → List Nat
  | [] => []
  | [s] => s
  | s :: rest => s ++ 44 :: 32 :: joinCommaSpace rest

/-- json.dumps of a list of strings. -/
def jsonDumpsStrList (l : List (List Nat)) : List Nat :=
  91 :: joinCommaSpace (l.map jsonDumpsStr) ++ [93]

/-- to_toml_value (cli.py lines 83-91). -/
def to_toml_value : TomlVal → List Nat
  | .b true => codes "true"
  | .b false => codes "false"
  | .date v => natDigits v
  | .n v => natDigits v
  | .s v => jsonDumpsStr v
  | .strs v => jsonDumpsStrList v

/-- The ordered front-matter key/value pairs (cli.py lines 59-74). -/
def front_matter_fields (post : BlogPost) (imagePath : Option (List Nat)) :
    List (List Nat × TomlVal) :=
  [(codes "title", TomlVal.s post.title),
   (codes "date", TomlVal.date post.date),
   (codes "draft", TomlVal.b false),
   (codes "type", TomlVal.s (codes "posts")),
   (codes "canonical_url", TomlVal.s post.original_url)] ++
  (match imagePath with
   | some p => [(codes "image", TomlVal.s p), (codes "imageAlt", TomlVal.s post.image_alt)]
   | none => []) ++
  (if post.tags.isEmpty then [] else [(codes "tags", TomlVal.strs post.tags)]) ++
  (match post.series_title with
   | some st => if st.isEmpty then [] else [(codes "series_title", TomlVal.s st)]
   | none => []) ++
  (match post.series_order with
   | some so => if so == 0 then [] else [(codes "series_order", TomlVal.n so)]
   | none => [])

/-- The lines of the front-matter block. -/
def build_front_matter_lines (post : BlogPost) (imagePath : Option (List Nat)) :
    List (List Nat) :=
  codes "+++" ::
    (front_matter_fields post imagePath).map
      (fun kv => kv.1 ++ codes " = " ++ to_toml_value kv.2) ++
    [codes "+++"]

/-- Newline-joined pieces. -/
def joinLines : List (List Nat) → List Nat
  | [] => []
  | [s] => s
  | s :: rest => s ++ 10 :: joinLines rest

/-- build_front_matter (cli.py lines 57-80). -/
def build_front_matter (post : BlogPost) (imagePath : Option (List Nat)) :
    List Nat :=
  joinLines (build_front_matter_lines post imagePath)

/-! ## Claim C1 -/

/-- C1: parse_devto_entry passes series_title/series_order keyword
arguments to the BlogPost constructor, but the BlogPost dataclass declares
neither field, so by Python dataclass semantics the construction raises
TypeError for every Dev.to entry that reaches it: no record with populated
series fields is ever returned by the source as written.  (The front-matter
builder reads the same missing attributes.) -/
theorem C1_blogpost_missing_series_fields :
    dataclassAcceptsKwargs blogPostFields devtoBlogPostKwargs = false ∧
    "series_title" ∈ devtoBlogPostKwargs ∧ "series_title" ∉ blogPostFields ∧
    "series_order" ∈ devtoBlogPostKwargs ∧ "series_order" ∉ blogPostFields := by
  decide

/-! ## Claim C6: normalize_headings -/

theorem newHeadingLevel_bounds (m l : Nat) :
    2 ≤ newHeadingLevel m l ∧ newHeadingLevel m l ≤ 6 := by
  simp only [newHeadingLevel]
  split_ifs <;> omega

theorem newHeadingLevel_mono {m a b : Nat} (h : a ≤ b) :
    newHeadingLevel m a ≤ newHeadingLevel m b := by
  simp only [newHeadingLevel]
  split_ifs <;> omega

theorem newHeadingLevel_self (m : Nat) : newHeadingLevel m m = 2 := by
  simp only [newHeadingLevel]
  split_ifs <;> omega

mutual
theorem nodeHeadingLevels_rename (m : Nat) :
    ∀ n : HNode, nodeHeadingLevels (nodeRename m n) =
      (nodeHeadingLevels n).map (newHeadingLevel m)
  | .text s => by simp [nodeRename, nodeHeadingLevels]
  | .img src alt => by simp [nodeRename, nodeHeadingLevels]
  | .anchor h cs => by
    simp [nodeRename, nodeHeadingLevels, forestHeadingLevels_rename m cs]
  | .heading l cs => by
    have hcs := forestHeadingLevels_rename m cs
    by_cases hl : 1 ≤ l ∧ l ≤ 6
    · have hb := newHeadingLevel_bounds m l
      have hb2 : 1 ≤ newHeadingLevel m l ∧ newHeadingLevel m l ≤ 6 := by omega
      simp [nodeRename, nodeHeadingLevels, hl, hb2, hcs]
    · simp [nodeRename, nodeHeadingLevels, hl, hcs]
  | .block t cs => by
    simp [nodeRename, nodeHeadingLevels, forestHeadingLevels_rename m cs]
theorem forestHeadingLevels_rename (m : Nat) :
    ∀ l : List HNode, forestHeadingLevels (forestRename m l) =
      (forestHeadingLevels l).map (newHeadingLevel m)
  | [] => by simp [forestRename, forestHeadingLevels]
  | n :: rest => by
    simp [forestRename, forestHeadingLevels, nodeHeadingLevels_rename m n,
      forestHeadingLevels_rename m rest]
end

theorem foldl_min_le : ∀ (t : List Nat) (a : Nat), t.foldl Nat.min a ≤ a := by
  intro t
  induction t with
  | nil => intro a; exact Nat.le_refl a
  | cons b bs ih =>
    intro a
    rw [List.foldl_cons]
    exact Nat.le_trans (ih (Nat.min a b)) (Nat.min_le_left _ _)

theorem foldl_min_le_mem :
    ∀ (t : List Nat) (a x : Nat), x ∈ t → t.foldl Nat.min a ≤ x := by
  intro t
  induction t with
  | nil => intro a x hx; simp at hx
  | cons b bs ih =>
    intro a x hx
    rw [List.foldl_cons]
    rcases List.mem_cons.1 hx with rfl | hx2
    · exact Nat.le_trans (foldl_min_le bs _) (Nat.min_le_right _ _)
    · exact ih _ x hx2

theorem foldl_min_mem : ∀ (t : List Nat) (a : Nat),
    t.foldl Nat.min a = a ∨ t.foldl Nat.min a ∈ t := by
  intro t
  induction t with
  | nil => intro a; left; rfl
  | cons b bs ih =>
    intro a
    rw [List.foldl_cons]
    rcases ih (Nat.min a b) with h | h
    · by_cases hab : a ≤ b
      · left
        rw [h]
        exact Nat.min_eq_left hab
      · right
        have hm : a.min b = b := Nat.min_eq_right (Nat.le_of_not_le hab)
        rw [h, hm]
        exact List.mem_cons_self _ _
    · right; exact List.mem_cons_of_mem _ h

theorem pyMin_mem {l : List Nat} (h : l ≠ []) : pyMin l ∈ l := by
  cases l with
  | nil => exact absurd rfl h
  | cons x xs =>
    simp only [pyMin]
    rcases foldl_min_mem xs x with h1 | h1
    · rw [h1]; exact List.mem_cons_self _ _
    · exact List.mem_cons_of_mem _ h1

theorem pyMin_le {l : List Nat} {x : Nat} (hx : x ∈ l) : pyMin l ≤ x := by
  cases l with
  | nil => simp at hx
  | cons y ys =>
    simp only [pyMin]
    rcases List.mem_cons.1 hx with rfl | h2
    · exact foldl_min_le ys x
    · exact foldl_min_le_mem ys y x h2

/-- C6: a document with no headings is unchanged; otherwise every heading
level is renamed by the single monotone map `newHeadingLevel min`, after
which level 2 is present, every level lies in [2,6] (so the minimum is
exactly 2), and the relative order of any two heading levels is preserved
(non-strictly: the spec's clamp at 6 can merge levels 5 and 6). -/
theorem C6_normalize_headings (soup : List HNode) :
    (forestHeadingLevels soup = [] → normalize_headings soup = soup) ∧
    (forestHeadingLevels soup ≠ [] →
      forestHeadingLevels (normalize_headings soup) =
        (forestHeadingLevels soup).map
          (newHeadingLevel (pyMin (forestHeadingLevels soup))) ∧
      2 ∈ forestHeadingLevels (normalize_headings soup) ∧
      (∀ l ∈ forestHeadingLevels (normalize_headings soup), 2 ≤ l ∧ l ≤ 6) ∧
      (∀ a b : Nat, a ≤ b →
        newHeadingLevel (pyMin (forestHeadingLevels soup)) a ≤
          newHeadingLevel (pyMin (forestHeadingLevels soup)) b)) := by
  constructor
  · intro h
    simp [normalize_headings, h]
  · intro h
    have hnorm : normalize_headings soup =
        forestRename (pyMin (forestHeadingLevels soup)) soup := by
      unfold normalize_headings
      cases hval : forestHeadingLevels soup with
      | nil => exact absurd hval h
      | cons x xs => rfl
    have hmap := forestHeadingLevels_rename (pyMin (forestHeadingLevels soup)) soup
    refine ⟨by rw [hnorm, hmap], ?_, ?_, ?_⟩
    · rw [hnorm, hmap]
      have hmem : pyMin (forestHeadingLevels soup) ∈ forestHeadingLevels soup :=
        pyMin_mem h
      have h2 := newHeadingLevel_self (pyMin (forestHeadingLevels soup))
      exact h2 ▸ List.mem_map_of_mem _ hmem
    · intro l hl
      rw [hnorm, hmap] at hl
      rcases List.mem_map.1 hl with ⟨a, _, rfl⟩
      exact newHeadingLevel_bounds _ a
    · intro a b hab
      exact newHeadingLevel_mono hab

/-- Witness for C6 at a document with headings h1, h5, h6: the result has
minimum level exactly 2. -/
theorem C6_normalize_headings_witness :
    forestHeadingLevels
        [HNode.heading 1 [], HNode.heading 5 [], HNode.heading 6 []] ≠ [] ∧
      2 ∈ forestHeadingLevels (normalize_headings
        [HNode.heading 1 [], HNode.heading 5 [], HNode.heading 6 []]) :=
  ⟨by decide,
    ((C6_normalize_headings
      [HNode.heading 1 [], HNode.heading 5 [], HNode.heading 6 []]).2
        (by decide)).2.1⟩

/-! ## Claim C7: tracking images -/

theorem forestImgSrcs_append (a b : List HNode) :
    forestImgSrcs (a ++ b) = forestImgSrcs a ++ forestImgSrcs b := by
  induction a with
  | nil => simp [forestImgSrcs]
  | cons n rest ih =>
    simp [forestImgSrcs, ih]

mutual
theorem removeTracking_node_srcs :
    ∀ (n : HNode) (n2 : HNode) (s : Option (List Nat)),
      removeTrackingNode n = some n2 → s ∈ nodeImgSrcs n2 →
      ∃ u, s = some u ∧ is_tracking_image u = false
  | .text s0 => by
    intro n2 s h hs
    simp only [removeTrackingNode, Option.some_inj] at h
    subst h
    simp [nodeImgSrcs] at hs
  | .img none alt => by
    intro n2 s h hs
    simp [removeTrackingNode] at h
  | .img (some src) alt => by
    intro n2 s h hs
    by_cases ht : is_tracking_image src = true
    · simp [removeTrackingNode, ht] at h
    · simp only [Bool.not_eq_true] at ht
      simp only [removeTrackingNode, ht, Bool.false_eq_true, if_false,
        Option.some_inj] at h
      subst h
      simp only [nodeImgSrcs, List.mem_cons, List.not_mem_nil, or_false] at hs
      subst hs
      exact ⟨src, rfl, ht⟩
  | .anchor h0 cs => by
    intro n2 s h hs
    simp only [removeTrackingNode, Option.some_inj] at h
    subst h
    simp only [nodeImgSrcs] at hs
    exact removeTracking_forest_srcs cs s hs
  | .heading l cs => by
    intro n2 s h hs
    simp only [removeTrackingNode, Option.some_inj] at h
    subst h
    simp only [nodeImgSrcs] at hs
    exact removeTracking_forest_srcs cs s hs
  | .block t cs => by
    intro n2 s h hs
    simp only [removeTrackingNode, Option.some_inj] at h
    subst h
    simp only [nodeImgSrcs] at hs
    exact removeTracking_forest_srcs cs s hs
theorem removeTracking_forest_srcs :
    ∀ (l : List HNode) (s : Option (List Nat)),
      s ∈ forestImgSrcs (removeTrackingForest l) →
      ∃ u, s = some u ∧ is_tracking_image u = false
  | [] => by
    intro s hs
    simp [removeTrackingForest, forestImgSrcs] at hs
  | n :: rest => by
    intro s hs
    simp only [removeTrackingForest] at hs
    rw [forestImgSrcs_append] at hs
    rcases List.mem_append.1 hs with h1 | h2
    · cases hrn : removeTrackingNode n with
      | none => rw [hrn] at h1; simp [forestImgSrcs] at h1
      | some n2 =>
        rw [hrn] at h1
        simp only [Option.toList_some, forestImgSrcs, List.append_nil] at h1
        exact removeTracking_node_srcs n n2 s hrn h1
    · exact removeTracking_forest_srcs rest s h2
end

mutual
theorem nodeImgSrcs_rename (m : Nat) :
    ∀ n : HNode, nodeImgSrcs (nodeRename m n) = nodeImgSrcs n
  | .text s => rfl
  | .img src alt => rfl
  | .anchor h cs => by
    simp [nodeRename, nodeImgSrcs, forestImgSrcs_rename m cs]
  | .heading l cs => by
    simp [nodeRename, nodeImgSrcs, forestImgSrcs_rename m cs]
  | .block t cs => by
    simp [nodeRename, nodeImgSrcs, forestImgSrcs_rename m cs]
theorem forestImgSrcs_rename (m : Nat) :
    ∀ l : List HNode, forestImgSrcs (forestRename m l) = forestImgSrcs l
  | [] => rfl
  | n :: rest => by
    simp [forestRename, forestImgSrcs, nodeImgSrcs_rename m n,
      forestImgSrcs_rename m rest]
end

theorem forestImgSrcs_normalize (l : List HNode) :
    forestImgSrcs (normalize_headings l) = forestImgSrcs l := by
  unfold normalize_headings
  cases forestHeadingLevels l with
  | nil => rfl
  | cons x xs => exact forestImgSrcs_rename _ l

mutual
theorem popFirstNode_found :
    ∀ (n : HNode) (f : List Nat × List Nat),
      (popFirstNode n).2 = some f → is_tracking_image f.1 = false
  | .text s0 => by
    intro f h
    simp [popFirstNode] at h
  | .img none alt => by
    intro f h
    simp [popFirstNode] at h
  | .img (some src) alt => by
    intro f h
    by_cases ht : is_tracking_image src = true
    · simp [popFirstNode, ht] at h
    · simp only [Bool.not_eq_true] at ht
      simp only [popFirstNode, ht, Bool.false_eq_true, if_false,
        Option.some_inj] at h
      subst h
      exact ht
  | .anchor h0 cs => by
    intro f h
    simp only [popFirstNode] at h
    exact popFirstForest_found cs f h
  | .heading l cs => by
    intro f h
    simp only [popFirstNode] at h
    exact popFirstForest_found cs f h
  | .block t cs => by
    intro f h
    simp only [popFirstNode] at h
    exact popFirstForest_found cs f h
theorem popFirstForest_found :
    ∀ (l : List HNode) (f : List Nat × List Nat),
      (popFirstForest l).2 = some f → is_tracking_image f.1 = false
  | [] => by
    intro f h
    simp [popFirstForest] at h
  | n :: rest => by
    intro f h
    cases hpn : popFirstNode n with
    | mk kept found =>
      cases found with
      | some f0 =>
        simp only [popFirstForest, hpn] at h
        rw [Option.some_inj] at h
        subst h
        exact popFirstNode_found n f0 (by rw [hpn])
      | none =>
        simp only [popFirstForest, hpn] at h
        exact popFirstForest_found rest f h
end

theorem pop_first_image_found {soup rest : List HNode} {src alt : List Nat}
    (h : pop_first_image soup = (rest, some src, alt)) :
    is_tracking_image src = false := by
  simp only [pop_first_image] at h
  cases hpf : (popFirstForest soup).2 with
  | some f =>
    rw [hpf] at h
    simp only [Prod.mk.injEq, Option.some_inj] at h
    have hf := popFirstForest_found soup f hpf
    rw [h.2.1] at hf
    exact hf
  | none =>
    rw [hpf] at h
    simp at h

/-- Component form of the pop_first_image cover property. -/
theorem pop_first_image_cover {soup : List HNode} {src : List Nat}
    (h : (pop_first_image soup).2.1 = some src) : is_tracking_image src = false := by
  simp only [pop_first_image] at h
  cases hpf : (popFirstForest soup).2 with
  | some f =>
    rw [hpf] at h
    simp only [Option.some_inj] at h
    have hf := popFirstForest_found soup f hpf
    rw [h] at hf
    exact hf
  | none =>
    rw [hpf] at h
    simp at h

/-- Inversion of a successful parse_medium_entry: the original URL is the
cleaned form of a non-empty raw URL, the body is trimmed, and the cover
image is whatever pop_first_image returned on the working tree. -/
theorem parse_medium_entry_inv {ext : MediumExt} {entry : MediumEntry}
    {post : BlogPost} (h : parse_medium_entry ext entry = Except.ok post) :
    (∃ u, u ≠ [] ∧ post.original_url = clean_url u) ∧
    post.markdown_body = pyStrip post.markdown_body ∧
    (∃ soup, post.image_url = (pop_first_image soup).2.1 ∧
      post.image_alt = (pop_first_image soup).2.2) := by
  simp only [parse_medium_entry] at h
  split at h
  · simp at h
  · split at h
    · simp at h
    · split at h
      · simp at h
      · split at h
        · simp at h
        · split at h
          · simp at h
          · split at h
            · simp at h
            · rename_i hu
              rw [Except.ok.injEq] at h
              subst h
              refine ⟨⟨_, ?_, rfl⟩, (pyStrip_idem _).symm, ⟨_, rfl, rfl⟩⟩
              intro hnil
              apply hu
              rw [hnil]
              rfl

/-- Inversion of a successful parse_devto_entry: the body is the non-empty
trimmed payload markdown, the original URL is the cleaned form of a
non-empty raw URL, and the tags are the payload tags with the feed-term
fallback when they are empty. -/
theorem parse_devto_entry_inv {ext : DevtoExt} {entry : DevtoEntry}
    {post : BlogPost} (h : parse_devto_entry ext entry = Except.ok post) :
    post.markdown_body ≠ [] ∧
    post.markdown_body = pyStrip post.markdown_body ∧
    (∃ u, u ≠ [] ∧ post.original_url = clean_url u) ∧
    (∃ a : ApiArticle,
      post.markdown_body = pyStrip (a.body_markdown.getD []) ∧
      post.tags = (if (devtoTags a.tag_list).isEmpty then extract_tags entry.tags
                   else devtoTags a.tag_list)) := by
  simp only [parse_devto_entry] at h
  split at h
  · simp at h
  · split at h
    · simp at h
    · split at h
      · simp at h
      · split at h
        · simp at h
        · rename_i hu0
          split at h
          · simp at h
          · split at h
            · simp at h
            · split at h
              · simp at h
              · rename_i hb
                rw [Except.ok.injEq] at h
                subst h
                refine ⟨?_, (pyStrip_idem _).symm, ⟨_, ?_, rfl⟩, ⟨_, rfl, rfl⟩⟩
                · exact fun hnil => hb (congrArg List.isEmpty hnil)
                · exact fun hnil => hu0 (congrArg List.isEmpty hnil)

/-- C7: an image whose source contains the tracking substring (matched
case-insensitively) never survives the Medium body pipeline — after
remove_tracking_images and normalize_headings every remaining image node
has a non-tracking source, so no tracking image reaches the Markdown
conversion — and it is never selected as cover: pop_first_image never
returns a tracking source, wherever the image occurs, hence a successful
parse never records one as the post image. -/
theorem C7_tracking_never_in_output :
    (∀ (x : List HNode) (s : Option (List Nat)),
        s ∈ forestImgSrcs (normalize_headings (remove_tracking_images x)) →
        ∃ u, s = some u ∧ is_tracking_image u = false) ∧
    (∀ (soup : List HNode) (src : List Nat),
        (pop_first_image soup).2.1 = some src → is_tracking_image src = false) ∧
    (∀ (ext : MediumExt) (entry : MediumEntry) (post : BlogPost),
        parse_medium_entry ext entry = Except.ok post →
        ∀ src, post.image_url = some src → is_tracking_image src = false) := by
  refine ⟨?_, ?_, ?_⟩
  · intro x s hs
    rw [forestImgSrcs_normalize] at hs
    exact removeTracking_forest_srcs x s hs
  · intro soup src h
    exact pop_first_image_cover h
  · intro ext entry post h src hsrc
    rcases (parse_medium_entry_inv h).2.2 with ⟨soup, himg, _⟩
    rw [himg] at hsrc
    exact pop_first_image_cover hsrc

/-- Witness for C7 at a one-image document. -/
theorem C7_tracking_never_in_output_witness :
    some (codes "https://cdn.example.com/pic.png") ∈
      forestImgSrcs (normalize_headings (remove_tracking_images
        [HNode.img (some (codes "https://cdn.example.com/pic.png")) []])) ∧
    ∃ u, some (codes "https://cdn.example.com/pic.png") = some u ∧
      is_tracking_image u = false :=
  ⟨by decide,
    C7_tracking_never_in_output.1
      [HNode.img (some (codes "https://cdn.example.com/pic.png")) []]
      (some (codes "https://cdn.example.com/pic.png")) (by decide)⟩

/-! ## Claim C2: adapter validity -/

/-- External collaborators for the C2 inputs: the content " " parses to a
lone whitespace text node (as BeautifulSoup does). -/
def c2Ext : MediumExt :=
  { parseHtml := fun _ => [HNode.text (codes " ")]
    parsedate := fun _ => some 3
    findOrigDate := fun _ => none }

/-- A Medium entry whose content is the whitespace-only string " "
(truthy, so the missing-content check passes). -/
def c2Entry : MediumEntry :=
  { title := some (codes "Empty body")
    published := some (codes "Mon, 01 Jan 2024 00:00:00 GMT")
    updated := none
    content := some (codes " ")
    summary := none
    link := some (codes "https://medium.com/u/a")
    tags := [] }

/-- The record parse_medium_entry builds for that entry. -/
def c2Post : BlogPost :=
  { title := codes "Empty body"
    slug := codes "empty-body"
    date := 3
    original_url := codes "https://medium.com/u/a"
    markdown_body := []
    tags := []
    image_url := none
    image_alt := []
    series_title := none
    series_order := none }

/-- C2 counterexample: the Medium adapter constructs a record whose
markdown body is empty after trimming — whitespace-only content converts
to whitespace and strips to nothing, and parse_medium_entry performs no
emptiness check on the converted body (unlike the Dev.to adapter). -/
theorem C2_counterexample :
    parse_medium_entry c2Ext c2Entry = Except.ok c2Post ∧
      c2Post.markdown_body = [] :=
  ⟨rfl, rfl⟩

/-- C2 (amended): each adapter either fails or returns a record whose
publish date was parsed, whose original URL is the cleaned form of a
non-empty raw URL, and whose markdown body carries no leading or trailing
whitespace; the Dev.to adapter additionally rejects an empty trimmed body,
but the Medium adapter does not validate the converted body, which can
therefore be empty. -/
theorem C2_adapter_validity :
    (∀ (ext : DevtoExt) (entry : DevtoEntry) (post : BlogPost),
        parse_devto_entry ext entry = Except.ok post →
        post.markdown_body ≠ [] ∧
        post.markdown_body = pyStrip post.markdown_body ∧
        ∃ u, u ≠ [] ∧ post.original_url = clean_url u) ∧
    (∀ (ext : MediumExt) (entry : MediumEntry) (post : BlogPost),
        parse_medium_entry ext entry = Except.ok post →
        post.markdown_body = pyStrip post.markdown_body ∧
        ∃ u, u ≠ [] ∧ post.original_url = clean_url u) := by
  constructor
  · intro ext entry post h
    obtain ⟨h1, h2, h3, _⟩ := parse_devto_entry_inv h
    exact ⟨h1, h2, h3⟩
  · intro ext entry post h
    obtain ⟨h1, h2, _⟩ := parse_medium_entry_inv h
    exact ⟨h2, h1⟩

/-- Witness for C2 (amended) at a concrete Medium entry. -/
theorem C2_adapter_validity_witness :
    parse_medium_entry c2Ext c2Entry = Except.ok c2Post ∧
      c2Post.markdown_body = pyStrip c2Post.markdown_body :=
  ⟨rfl, (C2_adapter_validity.2 c2Ext c2Entry c2Post rfl).1⟩

/-! ## Claims C8 and C5: per-entry failure handling in the fetch loops -/

theorem fetch_medium_posts_append (ext : MediumExt) :
    ∀ (xs ys : List MediumEntry) (P1 : List BlogPost) (L1 : List (List Nat)),
      fetch_medium_posts ext xs = Except.ok (P1, L1) →
      fetch_medium_posts ext (xs ++ ys) =
        match fetch_medium_posts ext ys with
        | .ok r => .ok (P1 ++ r.1, L1 ++ r.2)
        | .error err => .error err := by
  intro xs
  induction xs with
  | nil =>
    intro ys P1 L1 h
    simp only [fetch_medium_posts, Except.ok.injEq, Prod.mk.injEq] at h
    obtain ⟨rfl, rfl⟩ := h
    rw [List.nil_append]
    cases h2 : fetch_medium_posts ext ys with
    | ok r => simp
    | error err => simp
  | cons e rest ih =>
    intro ys P1 L1 h
    rw [List.cons_append]
    simp only [fetch_medium_posts] at h ⊢
    cases ht : entryTitle e.title with
    | none =>
      rw [ht] at h
      cases h1 : fetch_medium_posts ext rest with
      | error err => rw [h1] at h; simp at h
      | ok r =>
        rw [h1] at h
        simp only [Except.ok.injEq, Prod.mk.injEq] at h
        obtain ⟨rfl, rfl⟩ := h
        rw [ih ys r.1 r.2 h1]
        cases h2 : fetch_medium_posts ext ys with
        | ok r2 => simp
        | error err => simp
    | some title =>
      rw [ht] at h
      cases hp : parse_medium_entry ext e with
      | ok p =>
        rw [hp] at h
        have hq : (match fetch_medium_posts ext rest with
            | .ok r => (Except.ok (p :: r.1, r.2) :
                Except PyErr (List BlogPost × List (List Nat)))
            | .error err => Except.error err) = Except.ok (P1, L1) := h
        clear h
        cases h1 : fetch_medium_posts ext rest with
        | error err => rw [h1] at hq; simp at hq
        | ok r =>
          rw [h1] at hq
          simp only [Except.ok.injEq, Prod.mk.injEq] at hq
          obtain ⟨rfl, rfl⟩ := hq
          rw [ih ys r.1 r.2 h1]
          cases h2 : fetch_medium_posts ext ys with
          | ok r2 => simp
          | error err => simp
      | error err =>
        rw [hp] at h
        cases err with
        | valueError msg =>
          have hq : (match fetch_medium_posts ext rest with
              | .ok r => (Except.ok (r.1,
                  (codes "Skipping Medium entry '" ++ title ++ codes "': " ++ msg)
                    :: r.2) : Except PyErr (List BlogPost × List (List Nat)))
              | .error err => Except.error err) = Except.ok (P1, L1) := h
          clear h
          cases h1 : fetch_medium_posts ext rest with
          | error err2 => rw [h1] at hq; simp at hq
          | ok r =>
            rw [h1] at hq
            simp only [Except.ok.injEq, Prod.mk.injEq] at hq
            obtain ⟨rfl, rfl⟩ := hq
            rw [ih ys r.1 r.2 h1]
            cases h2 : fetch_medium_posts ext ys with
            | ok r2 => simp
            | error err2 => simp
        | transportError msg =>
          have hq : (Except.error (PyErr.transportError msg) :
              Except PyErr (List BlogPost × List (List Nat))) = Except.ok (P1, L1) := h
          simp at hq
        | attributeError msg =>
          have hq : (Except.error (PyErr.attributeError msg) :
              Except PyErr (List BlogPost × List (List Nat))) = Except.ok (P1, L1) := h
          simp at hq

theorem parse_medium_entry_missing_date (ext : MediumExt) {e : MediumEntry}
    {title : List Nat} (ht : entryTitle e.title = some title)
    (hp : e.published = none) (hu : e.updated = none) :
    parse_medium_entry ext e =
      Except.error (.valueError (missingDateMsg title)) := by
  cases htit : e.title with
  | none => rw [htit] at ht; simp [entryTitle] at ht
  | some t =>
    rw [htit] at ht
    simp only [entryTitle] at ht
    by_cases hte : t.isEmpty
    · rw [if_pos hte] at ht; simp at ht
    · rw [if_neg hte] at ht
      rw [Option.some_inj] at ht
      subst ht
      simp [parse_medium_entry, htit, hp, hu, parse_publish_date]

/-- C8: an entry whose primary and fallback date fields are both absent
makes parse_publish_date (through parse_medium_entry) fail with a
ValueError whose message embeds the post title, and the fetch loop catches
it: only that entry is dropped, its skip message is reported, and the rest
of the batch is still processed — the run is not aborted. -/
theorem C8_missing_date_skips_entry
    (ext : MediumExt) (pre suf : List MediumEntry) (e : MediumEntry)
    (title : List Nat) (P1 : List BlogPost) (L1 : List (List Nat))
    (ht : entryTitle e.title = some title)
    (hp : e.published = none) (hu : e.updated = none)
    (hpre : fetch_medium_posts ext pre = Except.ok (P1, L1)) :
    parse_medium_entry ext e =
      Except.error (.valueError (missingDateMsg title)) ∧
    (∃ m1 m2, missingDateMsg title = m1 ++ title ++ m2) ∧
    fetch_medium_posts ext (pre ++ e :: suf) =
      (match fetch_medium_posts ext suf with
       | .ok r => .ok (P1 ++ r.1,
           L1 ++ (codes "Skipping Medium entry '" ++ title ++ codes "': " ++
             missingDateMsg title) :: r.2)
       | .error err => .error err) := by
  have hperr := parse_medium_entry_missing_date ext ht hp hu
  refine ⟨hperr, ⟨codes "Post '", codes "' is missing a publish date.", rfl⟩, ?_⟩
  have hstep : fetch_medium_posts ext (e :: suf) =
      (match fetch_medium_posts ext suf with
       | .ok r => .ok (r.1,
           (codes "Skipping Medium entry '" ++ title ++ codes "': " ++
             missingDateMsg title) :: r.2)
       | .error err => .error err) := by
    simp only [fetch_medium_posts, ht, hperr]
  rw [fetch_medium_posts_append ext pre (e :: suf) P1 L1 hpre, hstep]
  cases h2 : fetch_medium_posts ext suf with
  | ok r => simp
  | error err => simp

/-- Inputs for the C8 witness. -/
def c8Ext : MediumExt :=
  { parseHtml := fun _ => []
    parsedate := fun _ => none
    findOrigDate := fun _ => none }

def c8Entry : MediumEntry :=
  { title := some (codes "No date")
    published := none
    updated := none
    content := none
    summary := none
    link := none
    tags := [] }

/-- Witness for C8 at a one-entry batch without dates. -/
theorem C8_missing_date_skips_entry_witness :
    entryTitle c8Entry.title = some (codes "No date") ∧
    fetch_medium_posts c8Ext ([] ++ c8Entry :: []) =
      (match fetch_medium_posts c8Ext [] with
       | .ok r => .ok ([] ++ r.1,
           [] ++ (codes "Skipping Medium entry '" ++ codes "No date" ++
             codes "': " ++ missingDateMsg (codes "No date")) :: r.2)
       | .error err => .error err) :=
  ⟨rfl, (C8_missing_date_skips_entry c8Ext [] [] c8Entry (codes "No date")
    [] [] rfl rfl rfl rfl).2.2⟩

theorem fetch_devto_posts_append (ext : DevtoExt) :
    ∀ (xs ys : List DevtoEntry) (P1 : List BlogPost) (L1 : List (List Nat)),
      fetch_devto_posts ext xs = Except.ok (P1, L1) →
      fetch_devto_posts ext (xs ++ ys) =
        match fetch_devto_posts ext ys with
        | .ok r => .ok (P1 ++ r.1, L1 ++ r.2)
        | .error err => .error err := by
  intro xs
  induction xs with
  | nil =>
    intro ys P1 L1 h
    simp only [fetch_devto_posts, Except.ok.injEq, Prod.mk.injEq] at h
    obtain ⟨rfl, rfl⟩ := h
    rw [List.nil_append]
    cases h2 : fetch_devto_posts ext ys with
    | ok r => simp
    | error err => simp
  | cons e rest ih =>
    intro ys P1 L1 h
    rw [List.cons_append]
    simp only [fetch_devto_posts] at h ⊢
    cases ht : entryTitle e.title with
    | none =>
      rw [ht] at h
      cases h1 : fetch_devto_posts ext rest with
      | error err => rw [h1] at h; simp at h
      | ok r =>
        rw [h1] at h
        simp only [Except.ok.injEq, Prod.mk.injEq] at h
        obtain ⟨rfl, rfl⟩ := h
        rw [ih ys r.1 r.2 h1]
        cases h2 : fetch_devto_posts ext ys with
        | ok r2 => simp
        | error err => simp
    | some title =>
      rw [ht] at h
      have hq0 : (if devtoSkip e = true then fetch_devto_posts ext rest
          else
            match parse_devto_entry ext e with
            | .ok p =>
              match fetch_devto_posts ext rest with
              | .ok r => (Except.ok (p :: r.1, r.2) :
                  Except PyErr (List BlogPost × List (List Nat)))
              | .error err => Except.error err
            | .error (.valueError msg) =>
              match fetch_devto_posts ext rest with
              | .ok r => Except.ok (r.1,
                  (codes "Skipping Dev.to entry '" ++ title ++ codes "': " ++ msg)
                    :: r.2)
              | .error err => Except.error err
            | .error err => Except.error err) = Except.ok (P1, L1) := h
      clear h
      show (if devtoSkip e = true then fetch_devto_posts ext (rest ++ ys)
          else
            match parse_devto_entry ext e with
            | .ok p =>
              match fetch_devto_posts ext (rest ++ ys) with
              | .ok r => (Except.ok (p :: r.1, r.2) :
                  Except PyErr (List BlogPost × List (List Nat)))
              | .error err => Except.error err
            | .error (.valueError msg) =>
              match fetch_devto_posts ext (rest ++ ys) with
              | .ok r => Except.ok (r.1,
                  (codes "Skipping Dev.to entry '" ++ title ++ codes "': " ++ msg)
                    :: r.2)
              | .error err => Except.error err
            | .error err => Except.error err) =
        match fetch_devto_posts ext ys with
        | .ok r => .ok (P1 ++ r.1, L1 ++ r.2)
        | .error err => .error err
      by_cases hskip : devtoSkip e = true
      · rw [if_pos hskip] at hq0 ⊢
        exact ih ys P1 L1 hq0
      · rw [if_neg hskip] at hq0 ⊢
        cases hp : parse_devto_entry ext e with
        | ok p =>
          rw [hp] at hq0
          have hq : (match fetch_devto_posts ext rest with
              | .ok r => (Except.ok (p :: r.1, r.2) :
                  Except PyErr (List BlogPost × List (List Nat)))
              | .error err => Except.error err) = Except.ok (P1, L1) := hq0
          clear hq0
          cases h1 : fetch_devto_posts ext rest with
          | error err => rw [h1] at hq; simp at hq
          | ok r =>
            rw [h1] at hq
            simp only [Except.ok.injEq, Prod.mk.injEq] at hq
            obtain ⟨rfl, rfl⟩ := hq
            rw [ih ys r.1 r.2 h1]
            cases h2 : fetch_devto_posts ext ys with
            | ok r2 => simp
            | error err => simp
        | error err =>
          rw [hp] at hq0
          cases err with
          | valueError msg =>
            have hq : (match fetch_devto_posts ext rest with
                | .ok r => (Except.ok (r.1,
                    (codes "Skipping Dev.to entry '" ++ title ++ codes "': " ++ msg)
                      :: r.2) : Except PyErr (List BlogPost × List (List Nat)))
                | .error err => Except.error err) = Except.ok (P1, L1) := hq0
            clear hq0
            cases h1 : fetch_devto_posts ext rest with
            | error err2 => rw [h1] at hq; simp at hq
            | ok r =>
              rw [h1] at hq
              simp only [Except.ok.injEq, Prod.mk.injEq] at hq
              obtain ⟨rfl, rfl⟩ := hq
              rw [ih ys r.1 r.2 h1]
              cases h2 : fetch_devto_posts ext ys with
              | ok r2 => simp
              | error err2 => simp
          | transportError msg =>
            have hq : (Except.error (PyErr.transportError msg) :
                Except PyErr (List BlogPost × List (List Nat))) =
                Except.ok (P1, L1) := hq0
            simp at hq
          | attributeError msg =>
            have hq : (Except.error (PyErr.attributeError msg) :
                Except PyErr (List BlogPost × List (List Nat))) =
                Except.ok (P1, L1) := hq0
            simp at hq

/-- C5 (amended): a per-entry ValueError (bad article id, missing fields,
or a JSON-decode failure from the article API) is reported and skips only
that entry — the batch continues and later posts are returned — but a
transport/HTTP failure while fetching the Dev.to article payload is NOT
caught by the loop (it catches ValueError only) and aborts the whole
batch: no posts at all are returned. -/
theorem C5_batch_failure_handling
    (ext : DevtoExt) (pre suf : List DevtoEntry) (e : DevtoEntry)
    (title msg : List Nat) (P1 : List BlogPost) (L1 : List (List Nat))
    (ht : entryTitle e.title = some title)
    (hskip : devtoSkip e = false)
    (hpre : fetch_devto_posts ext pre = Except.ok (P1, L1)) :
    (parse_devto_entry ext e = Except.error (.valueError msg) →
      fetch_devto_posts ext (pre ++ e :: suf) =
        (match fetch_devto_posts ext suf with
         | .ok r => .ok (P1 ++ r.1,
             L1 ++ (codes "Skipping Dev.to entry '" ++ title ++ codes "': " ++
               msg) :: r.2)
         | .error err => .error err)) ∧
    (parse_devto_entry ext e = Except.error (.transportError msg) →
      fetch_devto_posts ext (pre ++ e :: suf) =
        Except.error (.transportError msg)) := by
  constructor
  · intro hp
    have hstep : fetch_devto_posts ext (e :: suf) =
        (match fetch_devto_posts ext suf with
         | .ok r => .ok (r.1,
             (codes "Skipping Dev.to entry '" ++ title ++ codes "': " ++ msg)
               :: r.2)
         | .error err => .error err) := by
      simp only [fetch_devto_posts, ht, hskip, hp, Bool.false_eq_true, if_false]
    rw [fetch_devto_posts_append ext pre (e :: suf) P1 L1 hpre, hstep]
    cases h2 : fetch_devto_posts ext suf with
    | ok r => simp
    | error err => simp
  · intro hp
    have hstep : fetch_devto_posts ext (e :: suf) =
        Except.error (.transportError msg) := by
      simp only [fetch_devto_posts, ht, hskip, hp, Bool.false_eq_true, if_false]
    rw [fetch_devto_posts_append ext pre (e :: suf) P1 L1 hpre, hstep]

/-- Concrete article payload for the C5 inputs. -/
def c5Article : ApiArticle :=
  { body_markdown := some (codes "hello")
    cover_image := none
    title := some (codes "T")
    tag_list := TagListVal.list []
    collection_id := none
    id := none }

/-- An article API that transport-fails for every id except u/good. -/
def c5Ext : DevtoExt :=
  { parsedate := fun _ => some 5
    api := fun id =>
      if id = codes "u/good" then Except.ok c5Article
      else Except.error (.transportError (codes "boom"))
    seriesTitle := fun _ _ => none
    seriesOrder := fun _ _ _ => none }

def c5Bad : DevtoEntry :=
  { title := some (codes "Bad")
    published := some (codes "d")
    updated := none
    link := some (codes "https://dev.to/u/bad")
    url := none
    mediaThumbnail := []
    tags := [] }

def c5Good : DevtoEntry :=
  { title := some (codes "Good")
    published := some (codes "d")
    updated := none
    link := some (codes "https://dev.to/u/good")
    url := none
    mediaThumbnail := []
    tags := [] }

/-- The record the adapter builds for the good entry. -/
def c5GoodPost : BlogPost :=
  { title := codes "Good"
    slug := codes "good"
    date := 5
    original_url := codes "https://dev.to/u/good"
    markdown_body := codes "hello"
    tags := []
    image_url := none
    image_alt := codes "T"
    series_title := none
    series_order := none }

/-- C5 counterexample: a transport failure while fetching the first
entry's article payload aborts the whole batch — the second entry parses
fine on its own, yet its post is not returned, contradicting the claim
that the failure is reported and only the failing entry is skipped. -/
theorem C5_counterexample :
    fetch_devto_posts c5Ext [c5Bad, c5Good] =
      Except.error (.transportError (codes "boom")) ∧
    parse_devto_entry c5Ext c5Good = Except.ok c5GoodPost :=
  ⟨rfl, rfl⟩

/-- Witness for C5 (amended) at the concrete two-entry batch. -/
theorem C5_batch_failure_handling_witness :
    devtoSkip c5Bad = false ∧
    fetch_devto_posts c5Ext ([] ++ c5Bad :: [c5Good]) =
      Except.error (.transportError (codes "boom")) :=
  ⟨rfl, (C5_batch_failure_handling c5Ext [] [c5Good] c5Bad (codes "Bad")
    (codes "boom") [] [] rfl rfl rfl).2 rfl⟩

/-! ## Claim C4: tag lists -/

/-- Article payload whose tag_list is the comma-separated string "a,a". -/
def c4Article : ApiArticle :=
  { body_markdown := some (codes "body")
    cover_image := none
    title := some (codes "T")
    tag_list := TagListVal.str (codes "a,a")
    collection_id := none
    id := none }

def c4Ext : DevtoExt :=
  { parsedate := fun _ => some 1
    api := fun _ => Except.ok c4Article
    seriesTitle := fun _ _ => none
    seriesOrder := fun _ _ _ => none }

def c4Entry : DevtoEntry :=
  { title := some (codes "Tags")
    published := some (codes "d")
    updated := none
    link := some (codes "https://dev.to/u/tags")
    url := none
    mediaThumbnail := []
    tags := [] }

/-- The record the adapter builds: its tags list is ["a", "a"]. -/
def c4Post : BlogPost :=
  { title := codes "Tags"
    slug := codes "tags"
    date := 1
    original_url := codes "https://dev.to/u/tags"
    markdown_body := codes "body"
    tags := [codes "a", codes "a"]
    image_url := none
    image_alt := codes "T"
    series_title := none
    series_order := none }

/-- C4 counterexample: the Dev.to payload tag paths do not deduplicate —
tag_list "a,a" produces the record tags ["a","a"] — and the list form
keeps whitespace-only entries, which strip to the empty string after the
pre-strip truthiness test. -/
theorem C4_counterexample :
    (parse_devto_entry c4Ext c4Entry = Except.ok c4Post ∧
      ¬ c4Post.tags.Nodup) ∧
    devtoTagsOfList [codes " "] = [[]] := by
  refine ⟨⟨rfl, ?_⟩, rfl⟩
  decide

/-- C4 (amended): the feed-term paths (Medium terms and the Dev.to
feed-term fallback, both via extract_tags) produce exactly the
first-occurrence deduplication of the stripped non-empty terms — distinct
and non-empty in first-appearance order; the Dev.to payload string path
trims and drops empties but keeps exact duplicates, the payload list path
neither deduplicates nor fully drops empties, and the record's tags are
the payload tags with the feed-term fallback only when they are empty. -/
theorem C4_tags_amended :
    (∀ terms : List (Option (List Nat)),
        extract_tags terms = firstDedup (normalizedTerms terms) ∧
        (extract_tags terms).Nodup ∧
        ∀ x ∈ extract_tags terms, x ≠ []) ∧
    (∀ (s : List Nat), ∀ x ∈ devtoTagsOfString s, x ≠ [] ∧ pyStrip x = x) ∧
    (∀ (ext : DevtoExt) (entry : DevtoEntry) (post : BlogPost),
        parse_devto_entry ext entry = Except.ok post →
        ∃ a : ApiArticle,
          post.tags =
            (if (devtoTags a.tag_list).isEmpty then extract_tags entry.tags
             else devtoTags a.tag_list)) := by
  refine ⟨?_, ?_, ?_⟩
  · intro terms
    refine ⟨extract_tags_eq_firstDedup terms, ?_, ?_⟩
    · rw [extract_tags_eq_firstDedup]
      exact nodup_firstDedup _
    · intro x hx
      rw [extract_tags_eq_firstDedup] at hx
      have hmem := mem_firstDedup _ hx
      rcases List.mem_filterMap.1 hmem with ⟨t, _, ht⟩
      cases t with
      | none => simp at ht
      | some term =>
        by_cases h1 : term = []
        · simp [h1] at ht
        · by_cases h2 : pyStrip term = []
          · simp [h1, h2] at ht
          · simp only [h1, h2, if_neg, if_false, Option.some_inj] at ht
            rw [← ht]
            exact h2
  · intro s x hx
    exact devtoTagsOfString_trimmed hx
  · intro ext entry post h
    rcases (parse_devto_entry_inv h).2.2.2 with ⟨a, _, htags⟩
    exact ⟨a, htags⟩

/-- Witness for C4 (amended) at the concrete Dev.to entry. -/
theorem C4_tags_amended_witness :
    parse_devto_entry c4Ext c4Entry = Except.ok c4Post ∧
    ∃ a : ApiArticle,
      c4Post.tags =
        (if (devtoTags a.tag_list).isEmpty then extract_tags c4Entry.tags
         else devtoTags a.tag_list) :=
  ⟨rfl, C4_tags_amended.2.2 c4Ext c4Entry c4Post rfl⟩

/-! ## Claim C9: image filename and front-matter image field -/

/-- A post with the claim's image URL and slug. -/
def c9Post : BlogPost :=
  { title := codes "My Post"
    slug := codes "my-post"
    date := 1
    original_url := codes "https://x.com/p"
    markdown_body := codes "b"
    tags := []
    image_url := some (codes "https://x.com/img.png?w=100")
    image_alt := []
    series_title := none
    series_order := none }

/-- C9: the downloaded image filename is the slug plus an allow-listed
extension — the lowered URL-path extension when it is in
{jpg, jpeg, png, gif, webp} and ".jpg" otherwise — and the front-matter
image field is images/writing/slug.ext; in particular the URL
https://x.com/img.png?w=100 with slug my-post yields my-post.png (the
query string is excluded by urlsplit) and the front-matter line
image = "images/writing/my-post.png". -/
theorem C9_image_filename :
    (∀ slug url : List Nat, ∃ ext,
        determine_image_filename slug url = slug ++ ext ∧
        ext ∈ allowedImageExts ∧
        ((pathSuffix (urlsplit url).path).map lowerCode ∈ allowedImageExts →
          ext = (pathSuffix (urlsplit url).path).map lowerCode) ∧
        ((pathSuffix (urlsplit url).path).map lowerCode ∉ allowedImageExts →
          ext = codes ".jpg")) ∧
    determine_image_filename (codes "my-post")
        (codes "https://x.com/img.png?w=100") = codes "my-post.png" ∧
    write_post_image_web_path c9Post =
      some (codes "images/writing/my-post.png") ∧
    codes "image = \"images/writing/my-post.png\"" ∈
      build_front_matter_lines c9Post (write_post_image_web_path c9Post) := by
  refine ⟨?_, by decide, by decide, by decide⟩
  intro slug url
  by_cases hs : (pathSuffix (urlsplit url).path).map lowerCode ∈ allowedImageExts
  · refine ⟨(pathSuffix (urlsplit url).path).map lowerCode, ?_, hs,
      fun _ => rfl, fun hn => absurd hs hn⟩
    simp [determine_image_filename, hs]
  · refine ⟨codes ".jpg", ?_, by decide, fun hmem => absurd hmem hs,
      fun _ => rfl⟩
    simp [determine_image_filename, hs]

/-- Witness for C9 at a URL with an allow-listed extension. -/
theorem C9_image_filename_witness :
    (pathSuffix (urlsplit (codes "https://x.com/a.gif")).path).map lowerCode ∈
      allowedImageExts ∧
    ∃ ext, determine_image_filename (codes "s") (codes "https://x.com/a.gif") =
        codes "s" ++ ext ∧
      ext = (pathSuffix (urlsplit (codes "https://x.com/a.gif")).path).map
        lowerCode :=
  ⟨by decide, by
    obtain ⟨ext, h1, _, h3, _⟩ :=
      C9_image_filename.1 (codes "s") (codes "https://x.com/a.gif")
    exact ⟨ext, h1, h3 (by decide)⟩⟩
